import Mathlib

/-!
# STMicroelectronics sensor-hub quaternion driver

A shallow embedding of `drivers/iio/imu/st_sensor_hub/st_hub_quaternion.c`.

* Bytes (`u8`) are `Fin 256`; C `int` values are `Int`; sizes and cursors are `Nat`.
* A memory block is a `List u8`; an access outside a block makes the embedded
  function return `none`.
* Calls into the IIO framework and into the sensor-hub transport are recorded,
  in program order, in a trace of `hub_event`s; what those collaborators answer
  is supplied by an environment record.
-/

namespace StHubQuat

/-! ## Constants of the kernel interface

The error numbers, the `IIO_VAL_*` tags, the `IIO_CHAN_INFO_*` query masks and
the `INDIO_*` modes have the values the Linux headers give them. -/

abbrev u8 := Fin 256

def EINVAL : Int := 22
def EBUSY : Int := 16
def ENOMEM : Int := 12

def IIO_VAL_INT : Int := 1
def IIO_VAL_FRACTIONAL_LOG2 : Int := 11

def IIO_CHAN_INFO_RAW : Int := 0
def IIO_CHAN_INFO_SCALE : Int := 2

def INDIO_DIRECT_MODE : Nat := 0x01
def INDIO_BUFFER_TRIGGERED : Nat := 0x02

def ST_HUB_QUAT_NUM_DATA_CH : Nat := 5

/-! ## Data model -/

structure iio_scan_type where
  sign : Char
  realbits : Nat
  storagebits : Nat
  shift : Nat
deriving DecidableEq, Repr

structure iio_chan_spec where
  scan_index : Nat
  scan_type : iio_scan_type
deriving DecidableEq, Repr

/-- Modelled from the spec: the macro `ST_HUB_DEVICE_CHANNEL` is declared in
`st_sensor_hub.h`, which is not part of the sources at hand. The spec gives a
channel an index, a storage width in bits and a signedness; the arguments kept
here are the index, the two bit widths and the sign character of each use of the
macro in `st_hub_quat_ch`. The shift is the number of storage bits that are not
value bits. -/
def ST_HUB_DEVICE_CHANNEL (index rbits sbits : Nat) (sign : Char) : iio_chan_spec :=
  { scan_index := index,
    scan_type := { sign := sign, realbits := rbits, storagebits := sbits,
                   shift := sbits - rbits } }

/-- The five data channels of `st_hub_quat_ch` (X, Y, Z, module, accuracy). The
trailing software timestamp channel is never indexed by the functions below. -/
def st_hub_quat_ch : List iio_chan_spec :=
  [ ST_HUB_DEVICE_CHANNEL 0 32 32 's',
    ST_HUB_DEVICE_CHANNEL 1 32 32 's',
    ST_HUB_DEVICE_CHANNEL 2 32 32 's',
    ST_HUB_DEVICE_CHANNEL 3 32 32 's',
    ST_HUB_DEVICE_CHANNEL 4 8 8 'u' ]

/-- The fields of `struct st_hub_common_data` the driver reads. -/
structure st_hub_common_data where
  gain : Int
  payload_byte : Nat
deriving DecidableEq, Repr

/-- The fields of `struct st_hub_sensor_data` (the `iio_priv` area) in use. -/
structure st_hub_sensor_data where
  cdata : st_hub_common_data
  buffer : List u8
deriving DecidableEq, Repr

/-- The fields of `struct st_hub_pdata_info` in use; the hub handle is opaque. -/
structure st_hub_pdata_info where
  index : Nat
deriving DecidableEq, Repr

/-- The fields of `struct iio_dev` in use, with the private area and the
platform data of the parent device inlined. -/
structure iio_dev where
  channels : List iio_chan_spec
  active_scan_mask : Nat
  currentmode : Nat
  priv : st_hub_sensor_data
  info : st_hub_pdata_info
deriving DecidableEq, Repr

/-- Calls that leave the driver, in the order they are made. -/
inductive hub_event where
  | kmalloc (size : Nat)
  | kfree
  | st_hub_set_enable (index : Nat) (en sync : Bool) (delay : Nat) (excl : Bool)
  | st_hub_read_axis_data_asincronous (index len : Nat)
  | iio_push_to_buffers_with_timestamp (data : List u8) (timestamp : Int)
  | iio_device_alloc
  | platform_set_drvdata
  | st_hub_get_common_data (index : Nat)
  | st_hub_set_default_values
  | iio_triggered_buffer_setup
  | st_hub_setup_trigger_sensor
  | iio_device_register
  | st_hub_register_callback (index : Nat)
  | st_hub_remove_trigger
  | iio_triggered_buffer_cleanup
  | iio_device_free
  | iio_device_unregister
deriving DecidableEq, Repr

/-! ## Memory primitives -/

/-- The kernel's `test_bit(nr, addr)` on a one-word bitmap. -/
def test_bit (nr : Nat) (addr : Nat) : Bool := Nat.testBit addr nr

/-- Copy `n` bytes from `src` at offset `s` over `dst` at offset `d`; `none` when
either range leaves its block. -/
def memcpy (dst : List u8) (d : Nat) (src : List u8) (s n : Nat) : Option (List u8) :=
  if d + n ≤ dst.length ∧ s + n ≤ src.length then
    some (dst.take d ++ (src.drop s).take n ++ dst.drop (d + n))
  else
    none

/-! ## Streaming push: `st_hub_quat_push_data` -/

/-- The loop variables of `st_hub_quat_push_data`: the sample buffer, the write
cursor `init_copy` and the read cursor `sensor_data` (as an offset into `data`). -/
structure copy_state where
  buffer : List u8
  init_copy : Nat
  sensor_data : Nat
deriving DecidableEq, Repr

/-- One iteration of the copy loop, for channel `i`. -/
def copy_step (indio_dev : iio_dev) (data : List u8) (st : copy_state) (i : Nat) :
    Option copy_state := do
  let ch ← indio_dev.channels[i]?
  let byte_for_channel := ch.scan_type.storagebits >>> 3
  let st1 ←
    if test_bit i indio_dev.active_scan_mask then do
      let buf ← memcpy st.buffer st.init_copy data st.sensor_data byte_for_channel
      pure { st with buffer := buf, init_copy := st.init_copy + byte_for_channel }
    else
      pure st
  pure { st1 with sensor_data := st.sensor_data + byte_for_channel }

/-- The copy loop `for (i = 0; i < ST_HUB_QUAT_NUM_DATA_CH; i++)`. -/
def copy_loop (indio_dev : iio_dev) (data : List u8) : Option copy_state :=
  (List.range ST_HUB_QUAT_NUM_DATA_CH).foldlM (copy_step indio_dev data)
    { buffer := indio_dev.priv.buffer, init_copy := 0, sensor_data := 0 }

/-- What `st_hub_quat_push_data` leaves behind: the sample buffer, the final value
of `init_copy`, and the calls made. -/
structure push_result where
  buffer : List u8
  init_copy : Nat
  trace : List hub_event
deriving DecidableEq, Repr

/-- Model of `st_hub_quat_push_data`: the copy loop, then one push of the sample
buffer with the timestamp. The result is `none` when a copy leaves its block. -/
def st_hub_quat_push_data (indio_dev : iio_dev) (data : List u8) (timestamp : Int) :
    Option push_result := do
  let st ← copy_loop indio_dev data
  pure { buffer := st.buffer, init_copy := st.init_copy,
         trace := [hub_event.iio_push_to_buffers_with_timestamp st.buffer timestamp] }

/-! ## On-demand read: `st_hub_read_axis_data` and `st_hub_quat_read_raw` -/

/-- What the allocator, the sensor-hub transport and the processor answer during
one on-demand read: whether `kmalloc` returns a block and what that block holds,
the return values of the two `st_hub_set_enable` calls and of the blocking read,
the bytes the hub delivers, and the value a right shift of an `int` leaves when
its count is 32 or more. C leaves that shift undefined; a processor that takes
the count modulo 32 leaves the value unshifted at count 32. -/
structure hub_env where
  kmalloc_ok : Bool
  heap : List u8
  enable_ret : Int
  read_ret : Int
  read_data : List u8
  disable_ret : Int
  shift_undefined : Int
deriving DecidableEq, Repr

/-- A block of `size` bytes, or `none` for a NULL return. The block is not
cleared: it holds whatever the heap held. -/
def kmalloc (env : hub_env) (size : Nat) : Option (List u8) :=
  if env.kmalloc_ok then some ((List.range size).map (fun k => env.heap.getD k 0))
  else none

/-- Modelled from the spec: `st_hub_read_axis_data_asincronous` is defined in the
sensor-hub core, which is not part of the sources at hand. The spec describes it
as a blocking read of exactly `len` bytes into the caller's buffer: the delivered
bytes overwrite the start of `outdata`, never more than `len` of them and never
beyond the block. -/
def st_hub_read_axis_data_asincronous (env : hub_env) (outdata : List u8) (len : Nat) :
    Int × List u8 :=
  let got := env.read_data.take (min len outdata.length)
  (env.read_ret, got ++ outdata.drop got.length)

/-- The kernel's `get_unaligned_le32`, reading at offset `off` of block `p`. -/
def get_unaligned_le32 (p : List u8) (off : Nat) : Option Nat := do
  let b0 ← p[off]?
  let b1 ← p[off + 1]?
  let b2 ← p[off + 2]?
  let b3 ← p[off + 3]?
  pure (b0.val ||| (b1.val <<< 8) ||| (b2.val <<< 16) ||| (b3.val <<< 24))

/-- The cast `(s32)` of a `u32` value. -/
def s32 (v : Nat) : Int :=
  if v % 2 ^ 32 < 2 ^ 31 then ((v % 2 ^ 32 : Nat) : Int)
  else ((v % 2 ^ 32 : Nat) : Int) - 2 ^ 32

/-- The return value of `st_hub_read_axis_data`, the value of `*data` when it
returns, and the calls made. -/
structure axis_result where
  err : Int
  data : Int
  trace : List hub_event
deriving DecidableEq, Repr

/-- Model of `st_hub_read_axis_data`; `data` is the value `*data` holds on entry.
The result is `none` when an array access leaves its block. -/
def st_hub_read_axis_data (env : hub_env) (indio_dev : iio_dev) (index : Nat) (data : Int) :
    Option axis_result := do
  let adata := indio_dev.priv
  let info := indio_dev.info
  let ch0 ← indio_dev.channels[0]?
  let byte_for_channel := ch0.scan_type.storagebits >>> 3
  let t1 := [hub_event.kmalloc adata.cdata.payload_byte]
  match kmalloc env adata.cdata.payload_byte with
  | none => pure { err := -EINVAL, data := data, trace := t1 }
  | some outdata =>
    let t2 := t1 ++ [hub_event.st_hub_set_enable info.index true true 0 true]
    let err := env.enable_ret
    if err < 0 then
      pure { err := err, data := data, trace := t2 ++ [hub_event.kfree] }
    else
      let t3 := t2 ++ [hub_event.st_hub_read_axis_data_asincronous info.index
                        adata.cdata.payload_byte]
      let rd := st_hub_read_axis_data_asincronous env outdata adata.cdata.payload_byte
      let err := rd.1
      let outdata := rd.2
      if err < 0 then
        pure { err := err, data := data, trace := t3 ++ [hub_event.kfree] }
      else
        let t4 := t3 ++ [hub_event.st_hub_set_enable info.index false true 0 true]
        let err := env.disable_ret
        if err < 0 then
          pure { err := err, data := data, trace := t4 ++ [hub_event.kfree] }
        else if index = ST_HUB_QUAT_NUM_DATA_CH - 1 then do
          let b ← outdata[byte_for_channel * index]?
          pure { err := IIO_VAL_INT, data := (b.val : Int),
                 trace := t4 ++ [hub_event.kfree] }
        else do
          let v ← get_unaligned_le32 outdata (byte_for_channel * index)
          pure { err := IIO_VAL_FRACTIONAL_LOG2, data := s32 v,
                 trace := t4 ++ [hub_event.kfree] }

/-- The return value of `st_hub_quat_read_raw`, the values of `*val` and `*val2`
when it returns, and the calls made. -/
structure raw_result where
  ret : Int
  val : Int
  val2 : Int
  trace : List hub_event
deriving DecidableEq, Repr

/-- The expression `v >> count` on a 32-bit `int`: the arithmetic shift when the
count is below 32, and whatever the environment leaves otherwise, since C does
not define the shift of an `int` by 32 or more. -/
def int_shr (env : hub_env) (v : Int) (count : Nat) : Int :=
  if count < 32 then v >>> count else env.shift_undefined

/-- Model of `st_hub_quat_read_raw` for channel `ch` and query `mask`. -/
def st_hub_quat_read_raw (env : hub_env) (indio_dev : iio_dev) (ch : iio_chan_spec)
    (mask : Int) : Option raw_result :=
  let adata := indio_dev.priv
  let val : Int := 0
  let val2 : Int := 0
  if mask = IIO_CHAN_INFO_RAW then
    if indio_dev.currentmode = INDIO_BUFFER_TRIGGERED then
      pure { ret := -EBUSY, val := val, val2 := val2, trace := [] }
    else do
      let r ← st_hub_read_axis_data env indio_dev ch.scan_index val
      if r.err < 0 then
        pure { ret := r.err, val := r.data, val2 := val2, trace := r.trace }
      else
        pure { ret := r.err, val := int_shr env r.data ch.scan_type.shift, val2 := val2,
               trace := r.trace }
  else if mask = IIO_CHAN_INFO_SCALE then
    pure { ret := IIO_VAL_INT, val := adata.cdata.gain, val2 := val2, trace := [] }
  else
    pure { ret := -EINVAL, val := val, val2 := val2, trace := [] }

/-! ## Attach and detach: `st_hub_quat_probe`, `st_hub_quat_remove` -/

/-- The fields of `struct platform_device` in use: the driver-data slot (a handle
of an IIO device, if set) and the platform data. -/
structure platform_device where
  drvdata : Option Nat
  platform_data : st_hub_pdata_info
deriving DecidableEq, Repr

/-- What the collaborators answer during one attach: the handle returned by
`iio_device_alloc` (`none` for NULL), the common data of the sensor, and the
return values of the four setup steps. -/
structure probe_env where
  indio_dev : Option Nat
  cdata : st_hub_common_data
  default_ret : Int
  buffer_ret : Int
  trigger_ret : Int
  register_ret : Int
deriving DecidableEq, Repr

/-- What is held on behalf of the device being attached: the context, the
buffer/trigger resources, the trigger association, the registration with the IIO
core, and the instance indices under which a push callback is registered with
the transport. -/
structure hub_resources where
  context : Bool
  buffer : Bool
  trigger : Bool
  registered : Bool
  callbacks : List Nat
deriving DecidableEq, Repr

/-- Nothing held. -/
def hub_resources.none : hub_resources :=
  { context := false, buffer := false, trigger := false, registered := false,
    callbacks := [] }

/-- The return value of `st_hub_quat_probe`, the platform device and the
resources it leaves, and the calls made. -/
structure probe_result where
  err : Int
  pdev : platform_device
  res : hub_resources
  trace : List hub_event
deriving DecidableEq, Repr

/-- The tail of `st_hub_quat_probe` from label `st_hub_deallocate_device`. -/
def st_hub_deallocate_device (err : Int) (pdev : platform_device) (res : hub_resources)
    (t : List hub_event) : probe_result :=
  { err := err, pdev := pdev, res := { res with context := false },
    trace := t ++ [hub_event.iio_device_free] }

/-- The tail of `st_hub_quat_probe` from label `st_hub_clear_buffer`. -/
def st_hub_clear_buffer (err : Int) (pdev : platform_device) (res : hub_resources)
    (t : List hub_event) : probe_result :=
  st_hub_deallocate_device err pdev { res with buffer := false }
    (t ++ [hub_event.iio_triggered_buffer_cleanup])

/-- The tail of `st_hub_quat_probe` from label `st_hub_remove_trigger`. -/
def st_hub_remove_trigger_label (err : Int) (pdev : platform_device) (res : hub_resources)
    (t : List hub_event) : probe_result :=
  st_hub_clear_buffer err pdev { res with trigger := false }
    (t ++ [hub_event.st_hub_remove_trigger])

/-- Model of `st_hub_quat_probe`. A setup step holds its resource exactly when
the test the code applies to its return value takes it as a success. -/
def st_hub_quat_probe (env : probe_env) (pdev : platform_device) : probe_result :=
  let t0 := [hub_event.iio_device_alloc]
  match env.indio_dev with
  | none => { err := -ENOMEM, pdev := pdev, res := hub_resources.none, trace := t0 }
  | some indio_dev =>
    let res := { hub_resources.none with context := true }
    let pdev := { pdev with drvdata := some indio_dev }
    let info := pdev.platform_data
    let t1 := t0 ++ [hub_event.platform_set_drvdata,
                     hub_event.st_hub_get_common_data info.index,
                     hub_event.st_hub_set_default_values]
    let err := env.default_ret
    if err < 0 then st_hub_deallocate_device err pdev res t1
    else
      let t2 := t1 ++ [hub_event.iio_triggered_buffer_setup]
      let err := env.buffer_ret
      if err ≠ 0 then st_hub_deallocate_device err pdev res t2
      else
        let res := { res with buffer := true }
        let t3 := t2 ++ [hub_event.st_hub_setup_trigger_sensor]
        let err := env.trigger_ret
        if err < 0 then st_hub_clear_buffer err pdev res t3
        else
          let res := { res with trigger := true }
          let t4 := t3 ++ [hub_event.iio_device_register]
          let err := env.register_ret
          if err ≠ 0 then st_hub_remove_trigger_label err pdev res t4
          else
            let res := { res with registered := true }
            { err := 0, pdev := pdev,
              res := { res with callbacks := res.callbacks ++ [info.index] },
              trace := t4 ++ [hub_event.st_hub_register_callback info.index] }

/-- The return value of `st_hub_quat_remove`, the resources left, and the calls
made. -/
structure remove_result where
  err : Int
  res : hub_resources
  trace : List hub_event
deriving DecidableEq, Repr

/-- Model of `st_hub_quat_remove`; `indio_dev` is the device found in the
driver-data slot and `res` is what is held on its behalf. -/
def st_hub_quat_remove (indio_dev : iio_dev) (res : hub_resources) : remove_result :=
  let _adata := indio_dev.priv
  { err := 0,
    res := { res with registered := false, trigger := false, buffer := false,
                      context := false },
    trace := [hub_event.iio_device_unregister, hub_event.st_hub_remove_trigger,
              hub_event.iio_triggered_buffer_cleanup, hub_event.iio_device_free] }

/-! ## The frame geometry in the words of the specification -/

/-- The byte width of data channel `i` in a raw frame: 4, 4, 4, 4, 1. -/
def frame_width (i : Nat) : Nat := [4, 4, 4, 4, 1].getD i 0

/-- The fixed offset of data channel `i` in a raw frame: 0, 4, 8, 12, 16. -/
def frame_offset (i : Nat) : Nat := [0, 4, 8, 12, 16].getD i 0

/-- The bytes of data channel `i` in the raw frame `raw`. -/
def frame_channel (raw : List u8) (i : Nat) : List u8 :=
  (raw.drop (frame_offset i)).take (frame_width i)

/-- The data channels, in ascending order, whose bit is set in mask `m`. -/
def active_channels (m : Nat) : List Nat :=
  (List.range 5).filter (fun i => Nat.testBit m i)

/-- The packed sample the specification asks of the decoder: the bytes of the
active channels, in ascending channel order. -/
def packed_sample (raw : List u8) (m : Nat) : List u8 :=
  (active_channels m).flatMap (frame_channel raw)

/-! ## The on-demand transaction in the words of the specification -/

/-- The calls of a complete on-demand read, in order. -/
def read_calls (indio_dev : iio_dev) : List hub_event :=
  [hub_event.kmalloc indio_dev.priv.cdata.payload_byte,
   hub_event.st_hub_set_enable indio_dev.info.index true true 0 true,
   hub_event.st_hub_read_axis_data_asincronous indio_dev.info.index
     indio_dev.priv.cdata.payload_byte,
   hub_event.st_hub_set_enable indio_dev.info.index false true 0 true,
   hub_event.kfree]

/-- The steps of the on-demand read at which a failure can be injected. -/
inductive read_step where
  | allocation
  | enable
  | read
  | disable
deriving DecidableEq, Repr

/-- The environment makes `step` the first step that fails. -/
def read_fails_at (env : hub_env) : read_step → Bool
  | read_step.allocation => !env.kmalloc_ok
  | read_step.enable => env.kmalloc_ok && decide (env.enable_ret < 0)
  | read_step.read =>
      env.kmalloc_ok && decide (0 ≤ env.enable_ret) && decide (env.read_ret < 0)
  | read_step.disable =>
      env.kmalloc_ok && decide (0 ≤ env.enable_ret) && decide (0 ≤ env.read_ret)
        && decide (env.disable_ret < 0)

/-- The calls of the sequence allocation, enable, read, disable up to and
including `step`. -/
def read_calls_through (indio_dev : iio_dev) (step : read_step) : List hub_event :=
  (read_calls indio_dev).take
    (match step with
     | read_step.allocation => 1
     | read_step.enable => 2
     | read_step.read => 3
     | read_step.disable => 4)

/-- The failure code a transport step answers with; the allocation has none. -/
def read_step_code (env : hub_env) : read_step → Option Int
  | read_step.allocation => none
  | read_step.enable => some env.enable_ret
  | read_step.read => some env.read_ret
  | read_step.disable => some env.disable_ret

/-! ## Attach in the words of the specification -/

/-- The steps of Attach at which a failure can be injected. -/
inductive probe_step where
  | context_allocation
  | default_values
  | buffer_setup
  | trigger_setup
  | device_registration
deriving DecidableEq, Repr

/-- The environment makes `step` the first step of Attach that fails. -/
def probe_fails_at (env : probe_env) : probe_step → Bool
  | probe_step.context_allocation => env.indio_dev.isNone
  | probe_step.default_values => env.indio_dev.isSome && decide (env.default_ret < 0)
  | probe_step.buffer_setup =>
      env.indio_dev.isSome && decide (0 ≤ env.default_ret) && decide (env.buffer_ret ≠ 0)
  | probe_step.trigger_setup =>
      env.indio_dev.isSome && decide (0 ≤ env.default_ret) && decide (env.buffer_ret = 0)
        && decide (env.trigger_ret < 0)
  | probe_step.device_registration =>
      env.indio_dev.isSome && decide (0 ≤ env.default_ret) && decide (env.buffer_ret = 0)
        && decide (0 ≤ env.trigger_ret) && decide (env.register_ret ≠ 0)

/-- Every step of Attach succeeds. -/
def probe_all_succeed (env : probe_env) : Bool :=
  env.indio_dev.isSome && decide (0 ≤ env.default_ret) && decide (env.buffer_ret = 0)
    && decide (0 ≤ env.trigger_ret) && decide (env.register_ret = 0)

/-- The error of a failing step: the out-of-memory code for the allocation, the
return value of the step otherwise. -/
def probe_step_error (env : probe_env) : probe_step → Int
  | probe_step.context_allocation => -ENOMEM
  | probe_step.default_values => env.default_ret
  | probe_step.buffer_setup => env.buffer_ret
  | probe_step.trigger_setup => env.trigger_ret
  | probe_step.device_registration => env.register_ret

/-- The calls Attach makes to carry out `step`. -/
def probe_step_calls (pdev : platform_device) : probe_step → List hub_event
  | probe_step.context_allocation => [hub_event.iio_device_alloc]
  | probe_step.default_values =>
      [hub_event.platform_set_drvdata,
       hub_event.st_hub_get_common_data pdev.platform_data.index,
       hub_event.st_hub_set_default_values]
  | probe_step.buffer_setup => [hub_event.iio_triggered_buffer_setup]
  | probe_step.trigger_setup => [hub_event.st_hub_setup_trigger_sensor]
  | probe_step.device_registration => [hub_event.iio_device_register]

/-- The steps of Attach that come before `step`, in order. -/
def probe_steps_before : probe_step → List probe_step
  | probe_step.context_allocation => []
  | probe_step.default_values => [probe_step.context_allocation]
  | probe_step.buffer_setup => [probe_step.context_allocation, probe_step.default_values]
  | probe_step.trigger_setup =>
      [probe_step.context_allocation, probe_step.default_values, probe_step.buffer_setup]
  | probe_step.device_registration =>
      [probe_step.context_allocation, probe_step.default_values, probe_step.buffer_setup,
       probe_step.trigger_setup]

/-- The undo action of a step that succeeded; setting default values holds
nothing and has none. -/
def probe_undo : probe_step → List hub_event
  | probe_step.context_allocation => [hub_event.iio_device_free]
  | probe_step.default_values => []
  | probe_step.buffer_setup => [hub_event.iio_triggered_buffer_cleanup]
  | probe_step.trigger_setup => [hub_event.st_hub_remove_trigger]
  | probe_step.device_registration => [hub_event.iio_device_unregister]

/-- The five steps of Attach, in order. -/
def probe_steps : List probe_step :=
  [probe_step.context_allocation, probe_step.default_values, probe_step.buffer_setup,
   probe_step.trigger_setup, probe_step.device_registration]

/-- An undo action of Attach. -/
def is_undo (e : hub_event) : Bool :=
  e = hub_event.iio_device_free || e = hub_event.iio_triggered_buffer_cleanup
    || e = hub_event.st_hub_remove_trigger || e = hub_event.iio_device_unregister

/-! ## The on-demand extraction in the words of the specification -/

/-- The offsets the extraction step reads for channel `index`: `4 * index` to
`4 * index + 3` for the four 32-bit channels, 16 for the accuracy byte. -/
def extraction_offsets (index : Nat) : List Nat :=
  if index < 4 then [4 * index, 4 * index + 1, 4 * index + 2, 4 * index + 3] else [16]

/-- The number a run of channel bytes stands for: one byte is an unsigned
number, four bytes are a little-endian two-complement 32-bit integer. -/
def channel_value : List u8 → Int
  | [b] => (b.val : Int)
  | [b0, b1, b2, b3] =>
      (b0.val : Int) + 2 ^ 8 * (b1.val : Int) + 2 ^ 16 * (b2.val : Int)
        + 2 ^ 24 * (b3.val : Int) - (if b3.val < 128 then 0 else 2 ^ 32)
  | _ => 0

/-- The device `indio_dev` with its sample buffer holding `buffer`. -/
def with_buffer (indio_dev : iio_dev) (buffer : List u8) : iio_dev :=
  { indio_dev with priv := { indio_dev.priv with buffer := buffer } }

/-! ## The loop invariant of the decoder -/

/-- After some iterations of the copy loop over a buffer that held `orig`: the
buffer starts with the bytes `acc` packed so far and is untouched behind them,
the write cursor stands behind `acc`, and the read cursor stands at `off`. -/
def copy_inv (orig acc : List u8) (off : Nat) (st : copy_state) : Prop :=
  st.buffer = acc ++ orig.drop acc.length ∧ st.init_copy = acc.length ∧ st.sensor_data = off

/-! ## Sample inputs -/

/-- A device streaming X, Z and accuracy (mask `0b10101`), with a 24-byte sample
buffer. -/
def sample_streaming_dev : iio_dev :=
  { channels := st_hub_quat_ch, active_scan_mask := 21,
    currentmode := INDIO_BUFFER_TRIGGERED,
    priv := { cdata := { gain := 1000000, payload_byte := 17 },
              buffer := List.replicate 24 0 },
    info := { index := 3 } }

/-- An 18-byte raw frame with bytes 1, 2, ..., 18. -/
def sample_frame : List u8 := [1, 2, 3, 4, 5, 6, 7, 8, 9, 10, 11, 12, 13, 14, 15, 16, 17, 18]

/-- A device in direct mode with a 17-byte payload and gain 1000000. -/
def sample_direct_dev : iio_dev :=
  { channels := st_hub_quat_ch, active_scan_mask := 0, currentmode := INDIO_DIRECT_MODE,
    priv := { cdata := { gain := 1000000, payload_byte := 17 },
              buffer := List.replicate 24 0 },
    info := { index := 3 } }

/-- A transport that answers every call with success and delivers X = `00 00 80 3F`
and accuracy = `02`. -/
def sample_env : hub_env :=
  { kmalloc_ok := true, heap := [], enable_ret := 0, read_ret := 0,
    read_data := [0x00, 0x00, 0x80, 0x3F, 0, 0, 0, 0x80, 0, 0, 0, 0,
                  0xFF, 0xFF, 0xFF, 0xFF, 0x02],
    disable_ret := 0, shift_undefined := 0 }

/-- An attach environment in which every step succeeds. -/
def sample_probe_env : probe_env :=
  { indio_dev := some 7, cdata := { gain := 1000000, payload_byte := 17 },
    default_ret := 0, buffer_ret := 0, trigger_ret := 0, register_ret := 0 }

/-- A platform device with an empty driver-data slot, instance index 2. -/
def sample_pdev : platform_device :=
  { drvdata := none, platform_data := { index := 2 } }

/-- A transport as in `sample_env`, with `kmalloc` returning NULL. -/
def sample_env_nomem : hub_env := { sample_env with kmalloc_ok := false }

/-- A transport as in `sample_env`, with the blocking read failing with -5. -/
def sample_env_read_fails : hub_env := { sample_env with read_ret := -5 }

/-- An attach environment in which the device registration fails with -3. -/
def sample_probe_env_register_fails : probe_env := { sample_probe_env with register_ret := -3 }

/-- A device with Y as its only active channel (mask `0b00010`), a 17-byte payload
and a 24-byte sample buffer. -/
def sample_single_dev : iio_dev :=
  { channels := st_hub_quat_ch, active_scan_mask := 2, currentmode := INDIO_DIRECT_MODE,
    priv := { cdata := { gain := 1000000, payload_byte := 17 },
              buffer := List.replicate 24 0 },
    info := { index := 3 } }

/-! ## The frame decoder -/

theorem memcpy_append (acc orig src : List u8) (s n : Nat)
    (hdst : acc.length + n ≤ orig.length) (hsrc : s + n ≤ src.length) :
    memcpy (acc ++ orig.drop acc.length) acc.length src s n
      = some ((acc ++ (src.drop s).take n) ++ orig.drop (acc.length + n)) := by
  have hlen : acc.length + n ≤ (acc ++ orig.drop acc.length).length := by
    simp only [List.length_append, List.length_drop]; omega
  unfold memcpy
  rw [if_pos ⟨hlen, hsrc⟩, List.drop_append, List.drop_drop, List.take_left]

theorem packed_sample_unfold (raw : List u8) (m : Nat) :
    packed_sample raw m
      = (if test_bit 0 m then frame_channel raw 0 else [])
        ++ ((if test_bit 1 m then frame_channel raw 1 else [])
        ++ ((if test_bit 2 m then frame_channel raw 2 else [])
        ++ ((if test_bit 3 m then frame_channel raw 3 else [])
        ++ (if test_bit 4 m then frame_channel raw 4 else [])))) := by
  have hr : List.range 5 = [0, 1, 2, 3, 4] := by decide
  unfold packed_sample active_channels test_bit
  rw [hr]
  simp only [List.filter_cons, List.filter_nil]
  generalize Nat.testBit m 0 = b0
  generalize Nat.testBit m 1 = b1
  generalize Nat.testBit m 2 = b2
  generalize Nat.testBit m 3 = b3
  generalize Nat.testBit m 4 = b4
  cases b0 <;> cases b1 <;> cases b2 <;> cases b3 <;> cases b4 <;> simp

theorem copy_step_spec (indio_dev : iio_dev) (data orig acc : List u8) (off i w : Nat)
    (st : copy_state) (ch : iio_chan_spec)
    (hinv : copy_inv orig acc off st)
    (hch : indio_dev.channels[i]? = some ch)
    (hw : ch.scan_type.storagebits >>> 3 = w)
    (hsrc : off + w ≤ data.length)
    (hdst : test_bit i indio_dev.active_scan_mask = true → acc.length + w ≤ orig.length) :
    ∃ st1, copy_step indio_dev data st i = some st1 ∧
      copy_inv orig
        (acc ++ if test_bit i indio_dev.active_scan_mask then (data.drop off).take w else [])
        (off + w) st1 := by
  obtain ⟨hb, hi, ho⟩ := hinv
  unfold copy_step
  rw [hch]
  simp only [Option.bind_eq_bind, Option.some_bind, hw, Option.pure_def]
  cases hbit : test_bit i indio_dev.active_scan_mask
  · refine ⟨_, rfl, ?_⟩
    simp [copy_inv, hb, hi, ho]
  · have hm := memcpy_append acc orig data off w (hdst hbit) hsrc
    rw [hb, hi, ho, hm]
    refine ⟨_, rfl, ?_⟩
    have hl : ((data.drop off).take w).length = w := by
      rw [List.length_take, List.length_drop]; omega
    simp [copy_inv, hl]

theorem frame_channel_length (raw : List u8) (i : Nat) (hraw : 17 ≤ raw.length) :
    (frame_channel raw i).length = frame_width i := by
  unfold frame_channel
  rw [List.length_take, List.length_drop]
  have h : frame_offset i + frame_width i ≤ 17 := by
    unfold frame_offset frame_width
    rcases i with _ | _ | _ | _ | _ | i <;> simp
  omega

theorem active_width_unfold (m : Nat) :
    ((active_channels m).map frame_width).sum
      = (if test_bit 0 m then 4 else 0) + ((if test_bit 1 m then 4 else 0)
        + ((if test_bit 2 m then 4 else 0) + ((if test_bit 3 m then 4 else 0)
        + (if test_bit 4 m then 1 else 0)))) := by
  have hr : List.range 5 = [0, 1, 2, 3, 4] := by decide
  unfold active_channels test_bit
  rw [hr]
  simp only [List.filter_cons, List.filter_nil]
  generalize Nat.testBit m 0 = b0
  generalize Nat.testBit m 1 = b1
  generalize Nat.testBit m 2 = b2
  generalize Nat.testBit m 3 = b3
  generalize Nat.testBit m 4 = b4
  cases b0 <;> cases b1 <;> cases b2 <;> cases b3 <;> cases b4 <;> simp [frame_width]

theorem copy_loop_spec (indio_dev : iio_dev) (data : List u8)
    (hch : indio_dev.channels = st_hub_quat_ch)
    (hdata : 17 ≤ data.length)
    (hbuf : ((active_channels indio_dev.active_scan_mask).map frame_width).sum
              ≤ indio_dev.priv.buffer.length) :
    ∃ st, copy_loop indio_dev data = some st ∧
      copy_inv indio_dev.priv.buffer (packed_sample data indio_dev.active_scan_mask) 17 st := by
  have hr : List.range ST_HUB_QUAT_NUM_DATA_CH = [0, 1, 2, 3, 4] := by decide
  rw [active_width_unfold] at hbuf
  have hinv0 : copy_inv indio_dev.priv.buffer [] 0
      { buffer := indio_dev.priv.buffer, init_copy := 0, sensor_data := 0 } := by
    simp [copy_inv]
  have hc : ∀ off w, off + w ≤ 17 → ((data.drop off).take w).length = w := by
    intro off w h
    rw [List.length_take, List.length_drop]; omega
  obtain ⟨s1, e1, hinv1⟩ := copy_step_spec indio_dev data _ _ 0 0 4 _
    (ST_HUB_DEVICE_CHANNEL 0 32 32 's') hinv0 (by rw [hch]; rfl) (by decide) (by omega)
    (by intro h; rw [h] at hbuf; simp at hbuf ⊢; omega)
  obtain ⟨s2, e2, hinv2⟩ := copy_step_spec indio_dev data _ _ _ 1 4 _
    (ST_HUB_DEVICE_CHANNEL 1 32 32 's') hinv1 (by rw [hch]; rfl) (by decide) (by omega)
    (by
      intro h; simp only [h, ↓reduceIte] at hbuf
      simp only [List.length_append, List.length_nil, apply_ite List.length, hc 0 4 (by omega)]
      split_ifs at hbuf ⊢ <;> omega)
  obtain ⟨s3, e3, hinv3⟩ := copy_step_spec indio_dev data _ _ _ 2 4 _
    (ST_HUB_DEVICE_CHANNEL 2 32 32 's') hinv2 (by rw [hch]; rfl) (by decide) (by omega)
    (by
      intro h; simp only [h, ↓reduceIte] at hbuf
      simp only [List.length_append, List.length_nil, apply_ite List.length,
        hc 0 4 (by omega), hc (0 + 4) 4 (by omega)]
      split_ifs at hbuf ⊢ <;> omega)
  obtain ⟨s4, e4, hinv4⟩ := copy_step_spec indio_dev data _ _ _ 3 4 _
    (ST_HUB_DEVICE_CHANNEL 3 32 32 's') hinv3 (by rw [hch]; rfl) (by decide) (by omega)
    (by
      intro h; simp only [h, ↓reduceIte] at hbuf
      simp only [List.length_append, List.length_nil, apply_ite List.length,
        hc 0 4 (by omega), hc (0 + 4) 4 (by omega), hc (0 + 4 + 4) 4 (by omega)]
      split_ifs at hbuf ⊢ <;> omega)
  obtain ⟨s5, e5, hinv5⟩ := copy_step_spec indio_dev data _ _ _ 4 1 _
    (ST_HUB_DEVICE_CHANNEL 4 8 8 'u') hinv4 (by rw [hch]; rfl) (by decide) (by omega)
    (by
      intro h; simp only [h, ↓reduceIte] at hbuf
      simp only [List.length_append, List.length_nil, apply_ite List.length,
        hc 0 4 (by omega), hc (0 + 4) 4 (by omega), hc (0 + 4 + 4) 4 (by omega),
        hc (0 + 4 + 4 + 4) 4 (by omega)]
      split_ifs at hbuf ⊢ <;> omega)
  refine ⟨s5, ?_, ?_⟩
  · unfold copy_loop
    rw [hr]
    simp only [List.foldlM_cons, List.foldlM_nil, Option.bind_eq_bind, e1, e2, e3, e4, e5,
      Option.some_bind, Option.pure_def]
  · rw [packed_sample_unfold]
    simpa [frame_channel, frame_offset, frame_width] using hinv5

theorem packed_sample_length (raw : List u8) (m : Nat) (hraw : 17 ≤ raw.length) :
    (packed_sample raw m).length = ((active_channels m).map frame_width).sum := by
  rw [packed_sample_unfold, active_width_unfold]
  simp only [List.length_append, apply_ite List.length, List.length_nil,
    frame_channel_length raw _ hraw]
  rfl

/-- C1 (frame decoder). With the channel table of the driver installed, a raw
frame of at least 17 bytes (so every 18-byte frame) and a sample buffer with
room for the active channels, `st_hub_quat_push_data` returns, for every active
mask; the write cursor ends at the sum of the widths of the active channels,
which is the length of the packed sample; and the sample buffer then holds the
bytes of exactly the active channels, taken from the fixed offsets 0, 4, 8, 12,
16 of the frame in ascending channel order, followed by its old contents. -/
theorem push_data_decodes_active_channels (indio_dev : iio_dev) (data : List u8)
    (timestamp : Int)
    (hch : indio_dev.channels = st_hub_quat_ch)
    (hdata : 17 ≤ data.length)
    (hbuf : ((active_channels indio_dev.active_scan_mask).map frame_width).sum
              ≤ indio_dev.priv.buffer.length) :
    ∃ r, st_hub_quat_push_data indio_dev data timestamp = some r ∧
      r.init_copy = ((active_channels indio_dev.active_scan_mask).map frame_width).sum ∧
      (packed_sample data indio_dev.active_scan_mask).length = r.init_copy ∧
      r.buffer = packed_sample data indio_dev.active_scan_mask
                  ++ indio_dev.priv.buffer.drop r.init_copy := by
  obtain ⟨st, hst, hb, hi, _⟩ := copy_loop_spec indio_dev data hch hdata hbuf
  refine ⟨_, by unfold st_hub_quat_push_data; rw [hst]; rfl, ?_, ?_, ?_⟩
  · show st.init_copy = _
    rw [hi, packed_sample_length data _ hdata]
  · exact hi.symm
  · show st.buffer = _ ++ List.drop st.init_copy _
    rw [hb, hi]

theorem push_data_decodes_active_channels_witness :
    sample_streaming_dev.channels = st_hub_quat_ch ∧ 17 ≤ sample_frame.length ∧
    ((active_channels sample_streaming_dev.active_scan_mask).map frame_width).sum ≤ sample_streaming_dev.priv.buffer.length ∧
    ∃ r, st_hub_quat_push_data sample_streaming_dev sample_frame 99 = some r ∧
      r.init_copy = ((active_channels sample_streaming_dev.active_scan_mask).map frame_width).sum ∧
      (packed_sample sample_frame sample_streaming_dev.active_scan_mask).length = r.init_copy ∧
      r.buffer = packed_sample sample_frame sample_streaming_dev.active_scan_mask
                  ++ sample_streaming_dev.priv.buffer.drop r.init_copy :=
  ⟨rfl, by decide, by decide,
    push_data_decodes_active_channels sample_streaming_dev sample_frame 99 rfl (by decide) (by decide)⟩

/-! ## The on-demand read -/

theorem kmalloc_some (env : hub_env) (n : Nat) (hok : env.kmalloc_ok = true) :
    kmalloc env n = some ((List.range n).map (fun k => env.heap.getD k 0)) := by
  unfold kmalloc; rw [if_pos hok]

theorem scratch_getElem (env : hub_env) (blk : List u8) (n k : Nat) (b : u8)
    (hblk : blk.length = n) (hk : k < n) (hb : env.read_data[k]? = some b) :
    (st_hub_read_axis_data_asincronous env blk n).2[k]? = some b := by
  have hlen : k < env.read_data.length := by
    rcases Nat.lt_or_ge k env.read_data.length with h | h
    · exact h
    · rw [List.getElem?_eq_none h] at hb; cases hb
  unfold st_hub_read_axis_data_asincronous
  simp only [hblk, Nat.min_self]
  rw [List.getElem?_append_left (by rw [List.length_take]; omega), List.getElem?_take,
    if_pos hk, hb]

theorem le32_or_eq_add (b0 b1 b2 b3 : u8) :
    (b0.val ||| (b1.val <<< 8) ||| (b2.val <<< 16) ||| (b3.val <<< 24))
      = b0.val + 2 ^ 8 * b1.val + 2 ^ 16 * b2.val + 2 ^ 24 * b3.val := by
  have h0 := b0.isLt
  have h1 := b1.isLt
  have h2 := b2.isLt
  have e1 : b0.val ||| (b1.val <<< 8) = b0.val + 2 ^ 8 * b1.val := by
    rw [Nat.shiftLeft_eq, Nat.lor_comm, Nat.mul_comm, ← Nat.mul_add_lt_is_or (by omega)]
    omega
  have e2 : (b0.val + 2 ^ 8 * b1.val) ||| (b2.val <<< 16)
      = b0.val + 2 ^ 8 * b1.val + 2 ^ 16 * b2.val := by
    rw [Nat.shiftLeft_eq, Nat.lor_comm, Nat.mul_comm, ← Nat.mul_add_lt_is_or (by omega)]
    omega
  have e3 : (b0.val + 2 ^ 8 * b1.val + 2 ^ 16 * b2.val) ||| (b3.val <<< 24)
      = b0.val + 2 ^ 8 * b1.val + 2 ^ 16 * b2.val + 2 ^ 24 * b3.val := by
    rw [Nat.shiftLeft_eq, Nat.lor_comm, Nat.mul_comm, ← Nat.mul_add_lt_is_or (by omega)]
    omega
  rw [e1, e2, e3]

theorem s32_le32 (b0 b1 b2 b3 : u8) :
    s32 (b0.val + 2 ^ 8 * b1.val + 2 ^ 16 * b2.val + 2 ^ 24 * b3.val)
      = (b0.val : Int) + 2 ^ 8 * (b1.val : Int) + 2 ^ 16 * (b2.val : Int)
          + 2 ^ 24 * (b3.val : Int) - (if b3.val < 128 then 0 else 2 ^ 32) := by
  have h0 := b0.isLt
  have h1 := b1.isLt
  have h2 := b2.isLt
  have h3 := b3.isLt
  unfold s32
  have hm : (b0.val + 2 ^ 8 * b1.val + 2 ^ 16 * b2.val + 2 ^ 24 * b3.val) % 2 ^ 32
      = b0.val + 2 ^ 8 * b1.val + 2 ^ 16 * b2.val + 2 ^ 24 * b3.val :=
    Nat.mod_eq_of_lt (by omega)
  rw [hm]
  split_ifs with ha hb hb
  · push_cast; omega
  · omega
  · omega
  · push_cast; omega

theorem read_axis_data_extracts (env : hub_env) (indio_dev : iio_dev) (index : Nat)
    (data : Int)
    (hch : indio_dev.channels = st_hub_quat_ch)
    (hok : env.kmalloc_ok = true) (he : 0 ≤ env.enable_ret) (hr : 0 ≤ env.read_ret)
    (hd : 0 ≤ env.disable_ret) :
    st_hub_read_axis_data env indio_dev index data
      = (let outdata := (st_hub_read_axis_data_asincronous env
              ((List.range indio_dev.priv.cdata.payload_byte).map
                (fun k => env.heap.getD k 0)) indio_dev.priv.cdata.payload_byte).2
         if index = 4 then
           (outdata[4 * index]?).map (fun b =>
             { err := IIO_VAL_INT, data := (b.val : Int), trace := read_calls indio_dev })
         else
           (get_unaligned_le32 outdata (4 * index)).map (fun v =>
             { err := IIO_VAL_FRACTIONAL_LOG2, data := s32 v,
               trace := read_calls indio_dev })) := by
  have hrd : (st_hub_read_axis_data_asincronous env
      ((List.range indio_dev.priv.cdata.payload_byte).map (fun k => env.heap.getD k 0))
      indio_dev.priv.cdata.payload_byte).1 = env.read_ret := rfl
  have hc0 : st_hub_quat_ch[0]? = some (ST_HUB_DEVICE_CHANNEL 0 32 32 's') := rfl
  have hw : (ST_HUB_DEVICE_CHANNEL 0 32 32 's').scan_type.storagebits >>> 3 = 4 := by decide
  unfold st_hub_read_axis_data
  rw [hch, hc0]
  simp only [Option.bind_eq_bind, Option.some_bind, hw, kmalloc_some env _ hok, hrd,
    not_lt.mpr he, not_lt.mpr hr, not_lt.mpr hd, if_false, ST_HUB_QUAT_NUM_DATA_CH]
  split_ifs with h4
  · cases hx : (st_hub_read_axis_data_asincronous env
      ((List.range indio_dev.priv.cdata.payload_byte).map (fun k => env.heap.getD k 0))
      indio_dev.priv.cdata.payload_byte).2[4 * index]? <;> simp [read_calls]
  · cases hx : get_unaligned_le32 (st_hub_read_axis_data_asincronous env
      ((List.range indio_dev.priv.cdata.payload_byte).map (fun k => env.heap.getD k 0))
      indio_dev.priv.cdata.payload_byte).2 (4 * index) <;> simp [read_calls]

/-! ## The streaming push -/

/-- C10 (streaming push). With the channel table of the driver installed, a raw
frame of at least 17 bytes and a sample buffer with room for the active
channels, every invocation of `st_hub_quat_push_data` returns and makes exactly
one call, `iio_push_to_buffers_with_timestamp`, after the copy loop, with the
decoded sample buffer and the timestamp it was given; the first `init_copy`
bytes of that buffer are the packed sample. When the active channels are 0, 2
and 4, the packed data is exactly 9 bytes: bytes 0..3 of the frame, then bytes
8..11, then byte 16. -/
theorem push_data_forwards_one_sample (indio_dev : iio_dev) (data : List u8)
    (timestamp : Int)
    (hch : indio_dev.channels = st_hub_quat_ch)
    (hdata : 17 ≤ data.length)
    (hbuf : ((active_channels indio_dev.active_scan_mask).map frame_width).sum
              ≤ indio_dev.priv.buffer.length) :
    ∃ r, st_hub_quat_push_data indio_dev data timestamp = some r ∧
      r.trace = [hub_event.iio_push_to_buffers_with_timestamp r.buffer timestamp] ∧
      r.buffer.take r.init_copy = packed_sample data indio_dev.active_scan_mask ∧
      (active_channels indio_dev.active_scan_mask = [0, 2, 4] →
        r.init_copy = 9 ∧
        (r.buffer.take 9).length = 9 ∧
        r.buffer.take 9
          = data.take 4 ++ ((data.drop 8).take 4 ++ (data.drop 16).take 1)) := by
  obtain ⟨st, hst, hb, hi, _⟩ := copy_loop_spec indio_dev data hch hdata hbuf
  have htake : st.buffer.take st.init_copy
      = packed_sample data indio_dev.active_scan_mask := by
    rw [hb, hi, List.take_left]
  refine ⟨{ buffer := st.buffer, init_copy := st.init_copy,
            trace := [hub_event.iio_push_to_buffers_with_timestamp st.buffer timestamp] },
    by unfold st_hub_quat_push_data; rw [hst]; rfl, rfl, htake, ?_⟩
  intro hm
  have h9 : st.init_copy = 9 := by
    rw [hi, packed_sample_length data _ hdata, hm]; rfl
  have hp : packed_sample data indio_dev.active_scan_mask
      = data.take 4 ++ ((data.drop 8).take 4 ++ (data.drop 16).take 1) := by
    unfold packed_sample
    rw [hm]
    simp [List.flatMap, frame_channel, frame_offset, frame_width]
  show st.init_copy = 9 ∧ (st.buffer.take 9).length = 9 ∧ st.buffer.take 9 = _
  rw [h9] at htake
  refine ⟨h9, ?_, by rw [htake, hp]⟩
  rw [htake, ← h9, hi]

theorem push_data_forwards_one_sample_witness :
    sample_streaming_dev.channels = st_hub_quat_ch ∧
    17 ≤ sample_frame.length ∧
    active_channels sample_streaming_dev.active_scan_mask = [0, 2, 4] ∧
    sample_frame.take 4 ++ ((sample_frame.drop 8).take 4 ++ (sample_frame.drop 16).take 1)
      = [1, 2, 3, 4, 9, 10, 11, 12, 17] ∧
    ∃ r, st_hub_quat_push_data sample_streaming_dev sample_frame 99 = some r ∧
      r.trace = [hub_event.iio_push_to_buffers_with_timestamp r.buffer 99] ∧
      r.buffer.take r.init_copy
        = packed_sample sample_frame sample_streaming_dev.active_scan_mask ∧
      (active_channels sample_streaming_dev.active_scan_mask = [0, 2, 4] →
        r.init_copy = 9 ∧
        (r.buffer.take 9).length = 9 ∧
        r.buffer.take 9
          = sample_frame.take 4
              ++ ((sample_frame.drop 8).take 4 ++ (sample_frame.drop 16).take 1)) :=
  ⟨rfl, by decide, by decide, by decide,
    push_data_forwards_one_sample sample_streaming_dev sample_frame 99 rfl (by decide)
      (by decide)⟩

/-! ## The raw and scale queries -/

theorem getElem?_of_drop_take (l : List u8) (a k : Nat) (bs : List u8) (b : u8)
    (h : (l.drop a).take bs.length = bs) (hb : bs[k]? = some b) : l[a + k]? = some b := by
  have hk : k < bs.length := by
    rcases Nat.lt_or_ge k bs.length with h1 | h1
    · exact h1
    · rw [List.getElem?_eq_none h1] at hb; cases hb
  rw [← h, List.getElem?_take, if_pos hk, List.getElem?_drop] at hb
  exact hb

/-- C2 (mode exclusivity). In triggered mode a raw query returns `-EBUSY` for
every channel and every environment, leaves both outputs at 0 and makes no call
at all: no allocation, no `st_hub_set_enable`, no blocking read. -/
theorem read_raw_busy_in_triggered_mode (env : hub_env) (indio_dev : iio_dev)
    (ch : iio_chan_spec) (hmode : indio_dev.currentmode = INDIO_BUFFER_TRIGGERED) :
    st_hub_quat_read_raw env indio_dev ch IIO_CHAN_INFO_RAW
      = some { ret := -EBUSY, val := 0, val2 := 0, trace := [] } := by
  unfold st_hub_quat_read_raw
  rw [if_pos rfl, if_pos hmode]
  rfl

theorem read_raw_busy_in_triggered_mode_witness :
    sample_streaming_dev.currentmode = INDIO_BUFFER_TRIGGERED ∧
    st_hub_quat_read_raw sample_env sample_streaming_dev (ST_HUB_DEVICE_CHANNEL 0 32 32 's')
        IIO_CHAN_INFO_RAW
      = some { ret := -16, val := 0, val2 := 0, trace := [] } :=
  ⟨rfl, read_raw_busy_in_triggered_mode sample_env sample_streaming_dev
    (ST_HUB_DEVICE_CHANNEL 0 32 32 's') rfl⟩

/-- C9 (scale query). In every mode, for every channel and every environment, a
scale query returns the stored gain with tag `IIO_VAL_INT`, second output 0, and
makes no call at all. -/
theorem read_raw_scale_returns_gain (env : hub_env) (indio_dev : iio_dev)
    (ch : iio_chan_spec) :
    st_hub_quat_read_raw env indio_dev ch IIO_CHAN_INFO_SCALE
      = some { ret := IIO_VAL_INT, val := indio_dev.priv.cdata.gain, val2 := 0,
               trace := [] } := by
  unfold st_hub_quat_read_raw
  rw [if_neg (by decide), if_pos rfl]
  rfl

theorem read_raw_direct (env : hub_env) (indio_dev : iio_dev) (ch : iio_chan_spec)
    (hmode : indio_dev.currentmode ≠ INDIO_BUFFER_TRIGGERED) :
    st_hub_quat_read_raw env indio_dev ch IIO_CHAN_INFO_RAW
      = (st_hub_read_axis_data env indio_dev ch.scan_index 0).bind (fun r =>
          if r.err < 0 then
            some { ret := r.err, val := r.data, val2 := 0, trace := r.trace }
          else
            some { ret := r.err, val := int_shr env r.data ch.scan_type.shift, val2 := 0,
                   trace := r.trace }) := by
  unfold st_hub_quat_read_raw
  rw [if_pos rfl, if_neg hmode]
  rfl

/-- C5 (accuracy channel). Not in triggered mode, with the channel table of the
driver installed, the allocation and the three transport calls succeeding, a
payload size of at least 17, `ch` the entry of index 4 of the table and `b` the
delivered byte at offset 16: the raw query returns tag `IIO_VAL_INT` and the
value of `b` as an unsigned number, between 0 and 255; the shift of the entry is
0, so the shift applied to every raw value leaves it as it is. -/
theorem read_raw_accuracy_verbatim (env : hub_env) (indio_dev : iio_dev)
    (ch : iio_chan_spec) (b : u8)
    (hch : indio_dev.channels = st_hub_quat_ch)
    (hmode : indio_dev.currentmode ≠ INDIO_BUFFER_TRIGGERED)
    (hc : indio_dev.channels[4]? = some ch)
    (hok : env.kmalloc_ok = true) (he : 0 ≤ env.enable_ret) (hr : 0 ≤ env.read_ret)
    (hd : 0 ≤ env.disable_ret)
    (hpl : 17 ≤ indio_dev.priv.cdata.payload_byte)
    (hb : env.read_data[16]? = some b) :
    st_hub_quat_read_raw env indio_dev ch IIO_CHAN_INFO_RAW
      = some { ret := IIO_VAL_INT, val := (b.val : Int), val2 := 0,
               trace := read_calls indio_dev }
    ∧ 0 ≤ (b.val : Int) ∧ (b.val : Int) ≤ 255 := by
  have hlen : ((List.range indio_dev.priv.cdata.payload_byte).map
      (fun k => env.heap.getD k 0)).length = indio_dev.priv.cdata.payload_byte := by simp
  have g := scratch_getElem env _ _ 16 b hlen (by omega) hb
  have hce : ch = ST_HUB_DEVICE_CHANNEL 4 8 8 'u' := by
    rw [hch] at hc
    exact (Option.some.inj hc).symm
  have hlt := b.isLt
  refine ⟨?_, by omega, by omega⟩
  rw [read_raw_direct env indio_dev ch hmode,
    read_axis_data_extracts env indio_dev _ 0 hch hok he hr hd, hce]
  have hi : (ST_HUB_DEVICE_CHANNEL 4 8 8 'u').scan_index = 4 := rfl
  have hs : (ST_HUB_DEVICE_CHANNEL 4 8 8 'u').scan_type.shift = 0 := rfl
  simp only [hi, hs, if_pos, g, Option.map_some', Option.bind_eq_bind, Option.some_bind]
  rw [if_neg (by decide)]
  simp [int_shr]

theorem read_raw_accuracy_verbatim_witness :
    sample_direct_dev.channels = st_hub_quat_ch ∧
    sample_direct_dev.currentmode ≠ INDIO_BUFFER_TRIGGERED ∧
    sample_direct_dev.channels[4]? = some (ST_HUB_DEVICE_CHANNEL 4 8 8 'u') ∧
    sample_env.read_data[16]? = some 0x02 ∧
    st_hub_quat_read_raw sample_env sample_direct_dev (ST_HUB_DEVICE_CHANNEL 4 8 8 'u')
        IIO_CHAN_INFO_RAW
      = some { ret := IIO_VAL_INT, val := 2, val2 := 0,
               trace := read_calls sample_direct_dev } :=
  ⟨rfl, by decide, rfl, rfl,
    (read_raw_accuracy_verbatim sample_env sample_direct_dev
      (ST_HUB_DEVICE_CHANNEL 4 8 8 'u') 0x02 rfl (by decide) rfl rfl (by decide)
      (by decide) (by decide) (by decide) rfl).1⟩

/-- C3, as stated, fails at the allocation: when `kmalloc` returns NULL the
function returns at once, and `kfree` is called zero times, not once. -/
theorem read_axis_data_alloc_failure_frees_nothing :
    read_fails_at sample_env_nomem read_step.allocation = true ∧
    ∃ r, st_hub_read_axis_data sample_env_nomem sample_direct_dev 0 0 = some r ∧
      r.trace = [hub_event.kmalloc 17] ∧
      r.trace.count hub_event.kfree = 0 ∧
      r.trace.count hub_event.kfree ≠ 1 :=
  ⟨by decide, _, rfl, by decide, by decide, by decide⟩

/-- C3, amended (resource safety of the on-demand read). For every failure point
`step` of allocation, enable, read, disable, `st_hub_read_axis_data` returns; the
calls it makes are those of the sequence up to and including the failing step,
followed by one `kfree` when the failing step is enable, read or disable and by
nothing when it is the allocation (there is no buffer then); the value returned
for a failing enable, read or disable is the failure code of that step. -/
theorem read_axis_data_failure_cleanup (env : hub_env) (indio_dev : iio_dev)
    (index : Nat) (data : Int) (step : read_step)
    (hch : indio_dev.channels = st_hub_quat_ch)
    (hfail : read_fails_at env step = true) :
    ∃ r, st_hub_read_axis_data env indio_dev index data = some r ∧
      r.trace = read_calls_through indio_dev step
                  ++ (if step = read_step.allocation then [] else [hub_event.kfree]) ∧
      r.trace.count hub_event.kfree = (if step = read_step.allocation then 0 else 1) ∧
      (∀ c, read_step_code env step = some c → r.err = c) := by
  have hc0 : st_hub_quat_ch[0]? = some (ST_HUB_DEVICE_CHANNEL 0 32 32 's') := rfl
  have hrd : ∀ blk n, (st_hub_read_axis_data_asincronous env blk n).1 = env.read_ret :=
    fun _ _ => rfl
  unfold st_hub_read_axis_data
  rw [hch, hc0]
  cases step
  · simp only [read_fails_at, Bool.not_eq_true'] at hfail
    refine ⟨{ err := -EINVAL, data := data,
              trace := [hub_event.kmalloc indio_dev.priv.cdata.payload_byte] }, ?_, ?_⟩
    · simp [kmalloc, hfail]
    · simp [read_calls_through, read_calls, read_step_code]
  · simp only [read_fails_at, Bool.and_eq_true, decide_eq_true_eq] at hfail
    obtain ⟨hok, he⟩ := hfail
    refine ⟨{ err := env.enable_ret, data := data,
              trace := read_calls_through indio_dev read_step.enable ++ [hub_event.kfree] },
            ?_, ?_⟩
    · simp [kmalloc_some env _ hok, he, read_calls_through, read_calls]
    · simp [read_calls_through, read_calls, read_step_code]
  · simp only [read_fails_at, Bool.and_eq_true, decide_eq_true_eq] at hfail
    obtain ⟨⟨hok, he⟩, hr⟩ := hfail
    refine ⟨{ err := env.read_ret, data := data,
              trace := read_calls_through indio_dev read_step.read ++ [hub_event.kfree] },
            ?_, ?_⟩
    · simp [kmalloc_some env _ hok, not_lt.mpr he, hrd, hr, read_calls_through, read_calls]
    · simp [read_calls_through, read_calls, read_step_code]
  · simp only [read_fails_at, Bool.and_eq_true, decide_eq_true_eq] at hfail
    obtain ⟨⟨⟨hok, he⟩, hr⟩, hd⟩ := hfail
    refine ⟨{ err := env.disable_ret, data := data,
              trace := read_calls_through indio_dev read_step.disable ++ [hub_event.kfree] },
            ?_, ?_⟩
    · simp [kmalloc_some env _ hok, not_lt.mpr he, not_lt.mpr hr, hrd, hd,
        read_calls_through, read_calls]
    · simp [read_calls_through, read_calls, read_step_code]

theorem read_axis_data_failure_cleanup_witness :
    sample_direct_dev.channels = st_hub_quat_ch ∧
    read_fails_at sample_env_read_fails read_step.read = true ∧
    ∃ r, st_hub_read_axis_data sample_env_read_fails sample_direct_dev 0 0 = some r ∧
      r.trace = read_calls_through sample_direct_dev read_step.read
                  ++ (if read_step.read = read_step.allocation then []
                      else [hub_event.kfree]) ∧
      r.trace.count hub_event.kfree
        = (if read_step.read = read_step.allocation then 0 else 1) ∧
      (∀ c, read_step_code sample_env_read_fails read_step.read = some c → r.err = c) :=
  ⟨rfl, by decide,
    read_axis_data_failure_cleanup sample_env_read_fails sample_direct_dev 0 0
      read_step.read rfl (by decide)⟩

/-- C6. The allocation failure of the on-demand read and an unsupported query
mask are reported with one and the same code, `-EINVAL` (-22), whereas the
allocation failure of `st_hub_quat_probe` is reported as `-ENOMEM` (-12). -/
theorem alloc_failure_code_same_as_unsupported_mask :
    (∃ r1 r2,
      st_hub_quat_read_raw sample_env_nomem sample_direct_dev
          (ST_HUB_DEVICE_CHANNEL 0 32 32 's') IIO_CHAN_INFO_RAW = some r1 ∧
      st_hub_quat_read_raw sample_env sample_direct_dev
          (ST_HUB_DEVICE_CHANNEL 0 32 32 's') 7 = some r2 ∧
      r1.ret = -22 ∧ r2.ret = -22 ∧ r1.ret = r2.ret) ∧
    (st_hub_quat_probe { sample_probe_env with indio_dev := none } sample_pdev).err = -12 :=
  ⟨⟨_, _, rfl, rfl, by decide, by decide, by decide⟩, by decide⟩

/-! ## Attach -/

theorem probe_failure_spec (env : probe_env) (pdev : platform_device) (step : probe_step)
    (hfail : probe_fails_at env step = true) :
    (st_hub_quat_probe env pdev).err = probe_step_error env step ∧
    (st_hub_quat_probe env pdev).trace
      = (probe_steps_before step ++ [step]).flatMap (probe_step_calls pdev)
          ++ (probe_steps_before step).reverse.flatMap probe_undo ∧
    (st_hub_quat_probe env pdev).res = hub_resources.none := by
  unfold st_hub_quat_probe
  cases step
  · simp only [probe_fails_at, Option.isNone_iff_eq_none] at hfail
    rw [hfail]
    simp [probe_step_error, probe_steps_before, probe_step_calls, probe_undo, is_undo]
  · simp only [probe_fails_at, Bool.and_eq_true, decide_eq_true_eq,
      Option.isSome_iff_exists] at hfail
    obtain ⟨⟨h, ha⟩, hd⟩ := hfail
    rw [ha]
    simp [hd, st_hub_deallocate_device, hub_resources.none, probe_step_error,
      probe_steps_before, probe_step_calls, probe_undo, is_undo]
  · simp only [probe_fails_at, Bool.and_eq_true, decide_eq_true_eq,
      Option.isSome_iff_exists] at hfail
    obtain ⟨⟨⟨h, ha⟩, hd⟩, hb⟩ := hfail
    rw [ha]
    simp [not_lt.mpr hd, hb, st_hub_deallocate_device, hub_resources.none, probe_step_error,
      probe_steps_before, probe_step_calls, probe_undo, is_undo]
  · simp only [probe_fails_at, Bool.and_eq_true, decide_eq_true_eq,
      Option.isSome_iff_exists] at hfail
    obtain ⟨⟨⟨⟨h, ha⟩, hd⟩, hb⟩, ht⟩ := hfail
    rw [ha]
    simp [not_lt.mpr hd, hb, ht, st_hub_deallocate_device, st_hub_clear_buffer,
      hub_resources.none, probe_step_error,
      probe_steps_before, probe_step_calls, probe_undo, is_undo]
  · simp only [probe_fails_at, Bool.and_eq_true, decide_eq_true_eq,
      Option.isSome_iff_exists] at hfail
    obtain ⟨⟨⟨⟨⟨h, ha⟩, hd⟩, hb⟩, ht⟩, hr⟩ := hfail
    rw [ha]
    simp [not_lt.mpr hd, hb, not_lt.mpr ht, hr, st_hub_deallocate_device,
      st_hub_clear_buffer, st_hub_remove_trigger_label, hub_resources.none,
      probe_step_error, probe_steps_before, probe_step_calls, probe_undo, is_undo]

/-- C7 (attach rollback). For every failure point `step` of Attach: the error
returned is that of the failing step; the calls made are those of the steps up
to and including the failing one, followed by the undo actions of the steps that
had succeeded, latest first (remove trigger, buffer cleanup, free context), and
these are all the undo actions performed; afterwards nothing is held: no
context, no buffer/trigger resources, no registration, no callback. -/
theorem probe_rolls_back (env : probe_env) (pdev : platform_device) (step : probe_step)
    (hfail : probe_fails_at env step = true) :
    (st_hub_quat_probe env pdev).err = probe_step_error env step ∧
    (st_hub_quat_probe env pdev).trace
      = (probe_steps_before step ++ [step]).flatMap (probe_step_calls pdev)
          ++ (probe_steps_before step).reverse.flatMap probe_undo ∧
    (st_hub_quat_probe env pdev).trace.filter is_undo
      = (probe_steps_before step).reverse.flatMap probe_undo ∧
    (st_hub_quat_probe env pdev).res = hub_resources.none := by
  obtain ⟨he, ht, hres⟩ := probe_failure_spec env pdev step hfail
  refine ⟨he, ht, ?_, hres⟩
  rw [ht]
  cases step <;>
    simp [probe_steps_before, probe_step_calls, probe_undo, is_undo]

theorem probe_rolls_back_witness :
    probe_fails_at sample_probe_env_register_fails probe_step.device_registration = true ∧
    (st_hub_quat_probe sample_probe_env_register_fails sample_pdev).err = -3 ∧
    (st_hub_quat_probe sample_probe_env_register_fails sample_pdev).trace.filter is_undo
      = [hub_event.st_hub_remove_trigger, hub_event.iio_triggered_buffer_cleanup,
         hub_event.iio_device_free] ∧
    (st_hub_quat_probe sample_probe_env_register_fails sample_pdev).res
      = hub_resources.none :=
  ⟨by decide,
    (probe_rolls_back sample_probe_env_register_fails sample_pdev
      probe_step.device_registration (by decide)).1,
    (probe_rolls_back sample_probe_env_register_fails sample_pdev
      probe_step.device_registration (by decide)).2.2.1,
    (probe_rolls_back sample_probe_env_register_fails sample_pdev
      probe_step.device_registration (by decide)).2.2.2⟩

theorem probe_fails_somewhere (env : probe_env) (h : probe_all_succeed env = false) :
    ∃ step, probe_fails_at env step = true := by
  cases hi : env.indio_dev with
  | none => exact ⟨probe_step.context_allocation, by simp [probe_fails_at, hi]⟩
  | some d =>
    by_cases hd : env.default_ret < 0
    · exact ⟨probe_step.default_values, by simp [probe_fails_at, hi, hd]⟩
    · by_cases hb : env.buffer_ret = 0
      · by_cases ht : env.trigger_ret < 0
        · exact ⟨probe_step.trigger_setup,
            by simp [probe_fails_at, hi, not_lt.mp hd, hb, ht]⟩
        · by_cases hr : env.register_ret = 0
          · exfalso
            simp [probe_all_succeed, hi, not_lt.mp hd, hb, not_lt.mp ht, hr] at h
          · exact ⟨probe_step.device_registration,
              by simp [probe_fails_at, hi, not_lt.mp hd, hb, not_lt.mp ht, hr]⟩
      · exact ⟨probe_step.buffer_setup, by simp [probe_fails_at, hi, not_lt.mp hd, hb]⟩

theorem probe_step_error_ne_zero (env : probe_env) (step : probe_step)
    (h : probe_fails_at env step = true) : probe_step_error env step ≠ 0 := by
  cases step <;>
    simp only [probe_fails_at, Bool.and_eq_true, decide_eq_true_eq] at h <;>
    simp only [probe_step_error]
  · decide
  · omega
  · exact h.2
  · omega
  · exact h.2

theorem probe_success (env : probe_env) (pdev : platform_device)
    (h : probe_all_succeed env = true) :
    (st_hub_quat_probe env pdev).err = 0 ∧
    (st_hub_quat_probe env pdev).trace
      = probe_steps.flatMap (probe_step_calls pdev)
          ++ [hub_event.st_hub_register_callback pdev.platform_data.index] ∧
    (st_hub_quat_probe env pdev).res
      = { context := true, buffer := true, trigger := true, registered := true,
          callbacks := [pdev.platform_data.index] } := by
  simp only [probe_all_succeed, Bool.and_eq_true, decide_eq_true_eq,
    Option.isSome_iff_exists] at h
  obtain ⟨⟨⟨⟨⟨d, ha⟩, hd⟩, hb⟩, ht⟩, hr⟩ := h
  unfold st_hub_quat_probe
  rw [ha]
  simp [not_lt.mpr hd, hb, not_lt.mpr ht, hr, hub_resources.none, probe_steps,
    probe_step_calls]

/-- C8 (attach all-or-nothing). For every combination of step results: Attach
returns 0 exactly when every step succeeded. In that case the calls are those of
the five steps in order followed by one registration of the callback under the
instance index, right after the device registration; no undo action runs; and
everything is held. Otherwise there is a first failing step, the setup calls
made are those of the steps up to and including it and no later one, the
callback is never registered, and no callback is held. -/
theorem probe_all_or_nothing (env : probe_env) (pdev : platform_device) :
    ((st_hub_quat_probe env pdev).err = 0 ↔ probe_all_succeed env = true) ∧
    (probe_all_succeed env = true →
      (st_hub_quat_probe env pdev).trace
        = probe_steps.flatMap (probe_step_calls pdev)
            ++ [hub_event.st_hub_register_callback pdev.platform_data.index] ∧
      (st_hub_quat_probe env pdev).trace.count
          (hub_event.st_hub_register_callback pdev.platform_data.index) = 1 ∧
      (st_hub_quat_probe env pdev).trace.filter is_undo = [] ∧
      (st_hub_quat_probe env pdev).res
        = { context := true, buffer := true, trigger := true, registered := true,
            callbacks := [pdev.platform_data.index] }) ∧
    (probe_all_succeed env = false →
      ∃ step, probe_fails_at env step = true ∧
        (st_hub_quat_probe env pdev).trace.filter (fun e => !is_undo e)
          = (probe_steps_before step ++ [step]).flatMap (probe_step_calls pdev) ∧
        (∀ i, hub_event.st_hub_register_callback i ∉ (st_hub_quat_probe env pdev).trace) ∧
        (st_hub_quat_probe env pdev).res.callbacks = []) := by
  refine ⟨⟨?_, fun h => (probe_success env pdev h).1⟩, ?_, ?_⟩
  · intro h0
    cases hs : probe_all_succeed env
    · obtain ⟨step, hf⟩ := probe_fails_somewhere env hs
      have he := (probe_failure_spec env pdev step hf).1
      exact absurd (he ▸ h0) (probe_step_error_ne_zero env step hf)
    · rfl
  · intro h
    obtain ⟨_, ht, hres⟩ := probe_success env pdev h
    refine ⟨ht, ?_, ?_, hres⟩
    · rw [ht]; simp [probe_steps, probe_step_calls]
    · rw [ht]; simp [probe_steps, probe_step_calls, is_undo]
  · intro h
    obtain ⟨step, hf⟩ := probe_fails_somewhere env h
    obtain ⟨_, ht, hres⟩ := probe_failure_spec env pdev step hf
    refine ⟨step, hf, ?_, ?_, ?_⟩
    · rw [ht]
      cases step <;>
        simp [probe_steps_before, probe_step_calls, probe_undo, is_undo]
    · intro i
      rw [ht]
      cases step <;>
        simp [probe_steps_before, probe_step_calls, probe_undo]
    · rw [hres]; rfl

/-! ## Detach, unsupported queries, and the state after a failed attach -/

/-- C11 (detach). For every device, in whatever mode, and whatever is held,
`st_hub_quat_remove` makes exactly four calls, each once and in this order:
`iio_device_unregister`, `st_hub_remove_trigger`, `iio_triggered_buffer_cleanup`,
`iio_device_free`; it returns 0; and afterwards the registration, the trigger
association, the buffer/trigger resources and the context are no longer held. -/
theorem remove_unwinds_in_order (indio_dev : iio_dev) (res : hub_resources) :
    (st_hub_quat_remove indio_dev res).err = 0 ∧
    (st_hub_quat_remove indio_dev res).trace
      = [hub_event.iio_device_unregister, hub_event.st_hub_remove_trigger,
         hub_event.iio_triggered_buffer_cleanup, hub_event.iio_device_free] ∧
    (∀ e ∈ [hub_event.iio_device_unregister, hub_event.st_hub_remove_trigger,
            hub_event.iio_triggered_buffer_cleanup, hub_event.iio_device_free],
      (st_hub_quat_remove indio_dev res).trace.count e = 1) ∧
    (st_hub_quat_remove indio_dev res).res.registered = false ∧
    (st_hub_quat_remove indio_dev res).res.trigger = false ∧
    (st_hub_quat_remove indio_dev res).res.buffer = false ∧
    (st_hub_quat_remove indio_dev res).res.context = false := by
  refine ⟨rfl, rfl, ?_, rfl, rfl, rfl, rfl⟩
  intro e he
  have ht : (st_hub_quat_remove indio_dev res).trace
      = [hub_event.iio_device_unregister, hub_event.st_hub_remove_trigger,
         hub_event.iio_triggered_buffer_cleanup, hub_event.iio_device_free] := rfl
  rw [ht]
  simp only [List.mem_cons, List.mem_singleton, List.not_mem_nil, or_false] at he
  rcases he with h | h | h | h <;> subst h <;> decide

/-- C12 (unsupported query). For every query mask other than raw and scale, in
every mode, for every channel and every environment, `st_hub_quat_read_raw`
returns `-EINVAL`, leaves both outputs at 0 and makes no call at all. -/
theorem read_raw_rejects_unsupported_mask (env : hub_env) (indio_dev : iio_dev)
    (ch : iio_chan_spec) (mask : Int)
    (hraw : mask ≠ IIO_CHAN_INFO_RAW) (hscale : mask ≠ IIO_CHAN_INFO_SCALE) :
    st_hub_quat_read_raw env indio_dev ch mask
      = some { ret := -EINVAL, val := 0, val2 := 0, trace := [] } := by
  unfold st_hub_quat_read_raw
  rw [if_neg hraw, if_neg hscale]
  rfl

theorem read_raw_rejects_unsupported_mask_witness :
    (7 : Int) ≠ IIO_CHAN_INFO_RAW ∧ (7 : Int) ≠ IIO_CHAN_INFO_SCALE ∧
    st_hub_quat_read_raw sample_env sample_streaming_dev (ST_HUB_DEVICE_CHANNEL 4 8 8 'u') 7
      = some { ret := -22, val := 0, val2 := 0, trace := [] } :=
  ⟨by decide, by decide,
    read_raw_rejects_unsupported_mask sample_env sample_streaming_dev
      (ST_HUB_DEVICE_CHANNEL 4 8 8 'u') 7 (by decide) (by decide)⟩

/-- C18 (state left by a failed attach). For every failure point of Attach after
the context allocation succeeded, when `st_hub_quat_probe` returns the context
has been freed by the rollback, and the driver-data slot of the platform device
still holds the handle of that context: the slot set at the start is neither
restored nor cleared. -/
theorem probe_failure_leaves_drvdata (env : probe_env) (pdev : platform_device)
    (step : probe_step)
    (hfail : probe_fails_at env step = true)
    (hstep : step ≠ probe_step.context_allocation) :
    ∃ handle, env.indio_dev = some handle ∧
      (st_hub_quat_probe env pdev).pdev.drvdata = some handle ∧
      (st_hub_quat_probe env pdev).pdev.platform_data = pdev.platform_data ∧
      (st_hub_quat_probe env pdev).res.context = false ∧
      (st_hub_quat_probe env pdev).trace.count hub_event.iio_device_free = 1 ∧
      (st_hub_quat_probe env pdev).trace.getLast? = some hub_event.iio_device_free := by
  unfold st_hub_quat_probe
  cases step
  · exact absurd rfl hstep
  · simp only [probe_fails_at, Bool.and_eq_true, decide_eq_true_eq,
      Option.isSome_iff_exists] at hfail
    obtain ⟨⟨h, ha⟩, hd⟩ := hfail
    refine ⟨h, ha, ?_⟩
    rw [ha]
    simp [hd, st_hub_deallocate_device]
  · simp only [probe_fails_at, Bool.and_eq_true, decide_eq_true_eq,
      Option.isSome_iff_exists] at hfail
    obtain ⟨⟨⟨h, ha⟩, hd⟩, hb⟩ := hfail
    refine ⟨h, ha, ?_⟩
    rw [ha]
    simp [not_lt.mpr hd, hb, st_hub_deallocate_device]
  · simp only [probe_fails_at, Bool.and_eq_true, decide_eq_true_eq,
      Option.isSome_iff_exists] at hfail
    obtain ⟨⟨⟨⟨h, ha⟩, hd⟩, hb⟩, ht⟩ := hfail
    refine ⟨h, ha, ?_⟩
    rw [ha]
    simp [not_lt.mpr hd, hb, ht, st_hub_deallocate_device, st_hub_clear_buffer]
  · simp only [probe_fails_at, Bool.and_eq_true, decide_eq_true_eq,
      Option.isSome_iff_exists] at hfail
    obtain ⟨⟨⟨⟨⟨h, ha⟩, hd⟩, hb⟩, ht⟩, hr⟩ := hfail
    refine ⟨h, ha, ?_⟩
    rw [ha]
    simp [not_lt.mpr hd, hb, not_lt.mpr ht, hr, st_hub_deallocate_device,
      st_hub_clear_buffer, st_hub_remove_trigger_label]

theorem probe_failure_leaves_drvdata_witness :
    probe_fails_at sample_probe_env_register_fails probe_step.device_registration = true ∧
    probe_step.device_registration ≠ probe_step.context_allocation ∧
    sample_pdev.drvdata = none ∧
    ∃ handle, sample_probe_env_register_fails.indio_dev = some handle ∧
      (st_hub_quat_probe sample_probe_env_register_fails sample_pdev).pdev.drvdata
        = some handle ∧
      (st_hub_quat_probe sample_probe_env_register_fails sample_pdev).pdev.platform_data
        = sample_pdev.platform_data ∧
      (st_hub_quat_probe sample_probe_env_register_fails sample_pdev).res.context = false ∧
      (st_hub_quat_probe sample_probe_env_register_fails sample_pdev).trace.count
        hub_event.iio_device_free = 1 ∧
      (st_hub_quat_probe sample_probe_env_register_fails sample_pdev).trace.getLast?
        = some hub_event.iio_device_free :=
  ⟨by decide, by decide, rfl,
    probe_failure_leaves_drvdata sample_probe_env_register_fails sample_pdev
      probe_step.device_registration (by decide) (by decide)⟩

/-! ## Totality, outputs and bounds of the on-demand read -/

theorem scratch_length (env : hub_env) (blk : List u8) (n : Nat) (hblk : blk.length = n) :
    (st_hub_read_axis_data_asincronous env blk n).2.length = n := by
  unfold st_hub_read_axis_data_asincronous
  simp only [hblk, Nat.min_self, List.length_append, List.length_take, List.length_drop]
  omega

theorem scratch_full (env : hub_env) (blk : List u8) (n : Nat) (hblk : blk.length = n)
    (hfull : n ≤ env.read_data.length) :
    (st_hub_read_axis_data_asincronous env blk n).2 = env.read_data.take n := by
  unfold st_hub_read_axis_data_asincronous
  have hl : (env.read_data.take n).length = n := by
    rw [List.length_take]; omega
  simp only [hblk, Nat.min_self, hl]
  rw [List.drop_of_length_le (by omega), List.append_nil]

theorem le32_some (p : List u8) (off : Nat) (h : off + 3 < p.length) :
    ∃ v, get_unaligned_le32 p off = some v := by
  unfold get_unaligned_le32
  rw [List.getElem?_eq_getElem (show off < p.length by omega),
    List.getElem?_eq_getElem (show off + 1 < p.length by omega),
    List.getElem?_eq_getElem (show off + 2 < p.length by omega),
    List.getElem?_eq_getElem h]
  exact ⟨_, rfl⟩

theorem kmalloc_block_length (env : hub_env) (n : Nat) :
    ((List.range n).map (fun k => env.heap.getD k 0)).length = n := by
  simp

theorem read_axis_data_total (env : hub_env) (indio_dev : iio_dev) (index : Nat)
    (data : Int)
    (hch : indio_dev.channels = st_hub_quat_ch)
    (hidx : index ≤ 4)
    (hpl : 17 ≤ indio_dev.priv.cdata.payload_byte) :
    ∃ r, st_hub_read_axis_data env indio_dev index data = some r ∧
      (r.err < 0 → r.data = data) := by
  have hc0 : st_hub_quat_ch[0]? = some (ST_HUB_DEVICE_CHANNEL 0 32 32 's') := rfl
  have hrd : ∀ blk n, (st_hub_read_axis_data_asincronous env blk n).1 = env.read_ret :=
    fun _ _ => rfl
  cases hok : env.kmalloc_ok
  · refine ⟨{ err := -EINVAL, data := data,
              trace := [hub_event.kmalloc indio_dev.priv.cdata.payload_byte] }, ?_,
            fun _ => rfl⟩
    unfold st_hub_read_axis_data
    rw [hch, hc0]
    simp [kmalloc, hok]
  · by_cases he : env.enable_ret < 0
    · refine ⟨{ err := env.enable_ret, data := data,
                trace := read_calls_through indio_dev read_step.enable
                          ++ [hub_event.kfree] }, ?_, fun _ => rfl⟩
      unfold st_hub_read_axis_data
      rw [hch, hc0]
      simp [kmalloc_some env _ hok, he, read_calls_through, read_calls]
    · by_cases hr : env.read_ret < 0
      · refine ⟨{ err := env.read_ret, data := data,
                  trace := read_calls_through indio_dev read_step.read
                            ++ [hub_event.kfree] }, ?_, fun _ => rfl⟩
        unfold st_hub_read_axis_data
        rw [hch, hc0]
        simp [kmalloc_some env _ hok, he, hrd, hr, read_calls_through, read_calls]
      · by_cases hd : env.disable_ret < 0
        · refine ⟨{ err := env.disable_ret, data := data,
                    trace := read_calls_through indio_dev read_step.disable
                              ++ [hub_event.kfree] }, ?_, fun _ => rfl⟩
          unfold st_hub_read_axis_data
          rw [hch, hc0]
          simp [kmalloc_some env _ hok, he, hr, hrd, hd, read_calls_through, read_calls]
        · rw [read_axis_data_extracts env indio_dev index data hch hok (not_lt.mp he)
            (not_lt.mp hr) (not_lt.mp hd)]
          have hlen := scratch_length env _ indio_dev.priv.cdata.payload_byte
            (kmalloc_block_length env _)
          by_cases h4 : index = 4
          · simp only [if_pos h4]
            rw [List.getElem?_eq_getElem (by rw [hlen]; omega)]
            exact ⟨_, rfl, fun h => absurd h (show ¬ IIO_VAL_INT < 0 by decide)⟩
          · simp only [if_neg h4]
            obtain ⟨v, hv⟩ := le32_some _ (4 * index) (by rw [hlen]; omega)
            rw [hv]
            exact ⟨_, rfl, fun h => absurd h (show ¬ IIO_VAL_FRACTIONAL_LOG2 < 0 by decide)⟩

/-- C16 (output parameters). With the channel table of the driver installed, a
channel index of at most 4 and a payload size of at least 17,
`st_hub_quat_read_raw` returns for every environment, every query mask and every
mode; the second output `*val2` is 0 on return, hence also for a
`IIO_VAL_FRACTIONAL_LOG2` result; and whenever the return value is negative
(busy, failed allocation, failed transport step, unsupported mask) the first
output `*val` is 0. -/
theorem read_raw_outputs_on_every_path (env : hub_env) (indio_dev : iio_dev)
    (ch : iio_chan_spec) (mask : Int)
    (hch : indio_dev.channels = st_hub_quat_ch)
    (hidx : ch.scan_index ≤ 4)
    (hpl : 17 ≤ indio_dev.priv.cdata.payload_byte) :
    ∃ r, st_hub_quat_read_raw env indio_dev ch mask = some r ∧
      r.val2 = 0 ∧ (r.ret < 0 → r.val = 0) := by
  by_cases hraw : mask = IIO_CHAN_INFO_RAW
  · subst hraw
    by_cases hmode : indio_dev.currentmode = INDIO_BUFFER_TRIGGERED
    · refine ⟨{ ret := -EBUSY, val := 0, val2 := 0, trace := [] }, ?_, rfl, fun _ => rfl⟩
      unfold st_hub_quat_read_raw
      rw [if_pos rfl, if_pos hmode]
      rfl
    · obtain ⟨a, ha, hdata⟩ := read_axis_data_total env indio_dev ch.scan_index 0 hch hidx hpl
      rw [read_raw_direct env indio_dev ch hmode, ha]
      by_cases hneg : a.err < 0
      · refine ⟨{ ret := a.err, val := a.data, val2 := 0, trace := a.trace }, ?_, rfl,
          fun _ => hdata hneg⟩
        simp [hneg]
      · refine ⟨{ ret := a.err, val := int_shr env a.data ch.scan_type.shift, val2 := 0,
                  trace := a.trace }, ?_, rfl, fun h => absurd h hneg⟩
        simp [hneg]
  · by_cases hscale : mask = IIO_CHAN_INFO_SCALE
    · refine ⟨{ ret := IIO_VAL_INT, val := indio_dev.priv.cdata.gain, val2 := 0,
                trace := [] }, ?_, rfl, fun h => absurd h (show ¬ IIO_VAL_INT < 0 by decide)⟩
      unfold st_hub_quat_read_raw
      rw [if_neg hraw, if_pos hscale]
      rfl
    · refine ⟨{ ret := -EINVAL, val := 0, val2 := 0, trace := [] }, ?_, rfl, fun _ => rfl⟩
      unfold st_hub_quat_read_raw
      rw [if_neg hraw, if_neg hscale]
      rfl

theorem read_raw_outputs_on_every_path_witness :
    sample_direct_dev.channels = st_hub_quat_ch ∧
    (ST_HUB_DEVICE_CHANNEL 0 32 32 's').scan_index ≤ 4 ∧
    17 ≤ sample_direct_dev.priv.cdata.payload_byte ∧
    st_hub_quat_read_raw sample_env_read_fails sample_direct_dev
        (ST_HUB_DEVICE_CHANNEL 0 32 32 's') IIO_CHAN_INFO_RAW
      = some { ret := -5, val := 0, val2 := 0,
               trace := read_calls_through sample_direct_dev read_step.read
                          ++ [hub_event.kfree] } ∧
    ∃ r, st_hub_quat_read_raw sample_env_read_fails sample_direct_dev
        (ST_HUB_DEVICE_CHANNEL 0 32 32 's') IIO_CHAN_INFO_RAW = some r ∧
      r.val2 = 0 ∧ (r.ret < 0 → r.val = 0) :=
  ⟨rfl, by decide, by decide, by decide,
    read_raw_outputs_on_every_path sample_env_read_fails sample_direct_dev
      (ST_HUB_DEVICE_CHANNEL 0 32 32 's') IIO_CHAN_INFO_RAW rfl (by decide) (by decide)⟩

/-- C17 (bounds of the on-demand extraction). With the channel table of the
driver installed, a channel index of at most 4 and a payload size of at least
17: `st_hub_read_axis_data` returns for every environment, so no access leaves
its block; the scratch buffer handed to the extraction step has `payload_byte`
bytes; every offset the step reads (`4 * index` to `4 * index + 3` below index
4, 16 at index 4) lies inside it; and the read the code performs there, of one
byte at index 4 and of four bytes otherwise, finds its bytes. -/
theorem read_axis_extraction_in_bounds (env : hub_env) (indio_dev : iio_dev)
    (index : Nat) (data : Int)
    (hch : indio_dev.channels = st_hub_quat_ch)
    (hidx : index ≤ 4)
    (hpl : 17 ≤ indio_dev.priv.cdata.payload_byte) :
    (∃ r, st_hub_read_axis_data env indio_dev index data = some r) ∧
    ∀ blk, kmalloc env indio_dev.priv.cdata.payload_byte = some blk →
      (st_hub_read_axis_data_asincronous env blk indio_dev.priv.cdata.payload_byte).2.length
        = indio_dev.priv.cdata.payload_byte ∧
      (∀ k ∈ extraction_offsets index,
        k < (st_hub_read_axis_data_asincronous env blk
              indio_dev.priv.cdata.payload_byte).2.length) ∧
      (index = 4 →
        (st_hub_read_axis_data_asincronous env blk
          indio_dev.priv.cdata.payload_byte).2[4 * index]? ≠ none) ∧
      (index ≠ 4 →
        get_unaligned_le32 (st_hub_read_axis_data_asincronous env blk
          indio_dev.priv.cdata.payload_byte).2 (4 * index) ≠ none) := by
  obtain ⟨r, hr, _⟩ := read_axis_data_total env indio_dev index data hch hidx hpl
  refine ⟨⟨r, hr⟩, ?_⟩
  intro blk hblk
  have hbl : blk.length = indio_dev.priv.cdata.payload_byte := by
    unfold kmalloc at hblk
    split_ifs at hblk
    rw [← Option.some.inj hblk]
    simp
  have hlen := scratch_length env blk _ hbl
  refine ⟨hlen, ?_, ?_, ?_⟩
  · intro k hk
    rw [hlen]
    unfold extraction_offsets at hk
    split_ifs at hk with h4
    · simp only [List.mem_cons, List.mem_singleton, List.not_mem_nil, or_false] at hk
      omega
    · simp only [List.mem_singleton] at hk
      omega
  · intro h4
    rw [List.getElem?_eq_getElem (by rw [hlen]; omega)]
    exact Option.some_ne_none _
  · intro h4
    obtain ⟨v, hv⟩ := le32_some (st_hub_read_axis_data_asincronous env blk
      indio_dev.priv.cdata.payload_byte).2 (4 * index) (by rw [hlen]; omega)
    rw [hv]
    exact Option.some_ne_none _

theorem read_axis_extraction_in_bounds_witness :
    sample_direct_dev.channels = st_hub_quat_ch ∧ (3 : Nat) ≤ 4 ∧
    17 ≤ sample_direct_dev.priv.cdata.payload_byte ∧
    extraction_offsets 3 = [12, 13, 14, 15] ∧
    (∃ r, st_hub_read_axis_data sample_env sample_direct_dev 3 0 = some r) :=
  ⟨rfl, by decide, by decide, by decide,
    (read_axis_extraction_in_bounds sample_env sample_direct_dev 3 0 rfl (by decide)
      (by decide)).1⟩

theorem with_buffer_mask (indio_dev : iio_dev) (b : List u8) :
    (with_buffer indio_dev b).active_scan_mask = indio_dev.active_scan_mask := rfl

theorem with_buffer_buffer (indio_dev : iio_dev) (b : List u8) :
    (with_buffer indio_dev b).priv.buffer = b := rfl

/-- C14 (decoder idempotence). With the channel table of the driver installed, a
raw frame of at least 17 bytes and room for the active channels: decoding the
frame, then decoding the same frame again into the sample buffer as the first
decode left it, leaves the buffer and the write cursor exactly as after the
first decode; and a decode that starts from any other buffer contents `other`
ends with the same write cursor and the same decoded bytes. -/
theorem push_data_decode_idempotent (indio_dev : iio_dev) (data other : List u8)
    (ts1 ts2 : Int)
    (hch : indio_dev.channels = st_hub_quat_ch)
    (hdata : 17 ≤ data.length)
    (hbuf : ((active_channels indio_dev.active_scan_mask).map frame_width).sum
              ≤ indio_dev.priv.buffer.length)
    (hother : ((active_channels indio_dev.active_scan_mask).map frame_width).sum
              ≤ other.length) :
    ∃ r1 r2 r3,
      st_hub_quat_push_data indio_dev data ts1 = some r1 ∧
      st_hub_quat_push_data (with_buffer indio_dev r1.buffer) data ts2 = some r2 ∧
      r2.buffer = r1.buffer ∧ r2.init_copy = r1.init_copy ∧
      st_hub_quat_push_data (with_buffer indio_dev other) data ts1 = some r3 ∧
      r3.init_copy = r1.init_copy ∧
      r3.buffer.take r3.init_copy = r1.buffer.take r1.init_copy := by
  have hplen := packed_sample_length data indio_dev.active_scan_mask hdata
  obtain ⟨s1, hs1, hb1, hi1, _⟩ := copy_loop_spec indio_dev data hch hdata hbuf
  have hlen1 : s1.buffer.length = indio_dev.priv.buffer.length := by
    rw [hb1, List.length_append, List.length_drop]; omega
  obtain ⟨s2, hs2, hb2, hi2, _⟩ := copy_loop_spec (with_buffer indio_dev s1.buffer) data hch
    hdata (by show _ ≤ s1.buffer.length; rw [hlen1]; exact hbuf)
  obtain ⟨s3, hs3, hb3, hi3, _⟩ := copy_loop_spec (with_buffer indio_dev other) data hch
    hdata hother
  simp only [with_buffer_mask, with_buffer_buffer] at hb2 hi2 hb3 hi3
  have e2 : s2.buffer = s1.buffer := by
    rw [hb2, hb1, List.drop_left]
  refine ⟨{ buffer := s1.buffer, init_copy := s1.init_copy,
            trace := [hub_event.iio_push_to_buffers_with_timestamp s1.buffer ts1] },
          { buffer := s2.buffer, init_copy := s2.init_copy,
            trace := [hub_event.iio_push_to_buffers_with_timestamp s2.buffer ts2] },
          { buffer := s3.buffer, init_copy := s3.init_copy,
            trace := [hub_event.iio_push_to_buffers_with_timestamp s3.buffer ts1] },
          ?_, ?_, e2, ?_, ?_, ?_, ?_⟩
  · unfold st_hub_quat_push_data; rw [hs1]; rfl
  · unfold st_hub_quat_push_data; rw [hs2]; rfl
  · show s2.init_copy = s1.init_copy
    rw [hi2, hi1]
  · unfold st_hub_quat_push_data; rw [hs3]; rfl
  · show s3.init_copy = s1.init_copy
    rw [hi3, hi1]
  · show s3.buffer.take s3.init_copy = s1.buffer.take s1.init_copy
    rw [hb3, hi3, hb1, hi1, List.take_left, List.take_left]

theorem push_data_decode_idempotent_witness :
    sample_streaming_dev.channels = st_hub_quat_ch ∧ 17 ≤ sample_frame.length ∧
    ∃ r1 r2 r3,
      st_hub_quat_push_data sample_streaming_dev sample_frame 99 = some r1 ∧
      st_hub_quat_push_data (with_buffer sample_streaming_dev r1.buffer) sample_frame 100
        = some r2 ∧
      r2.buffer = r1.buffer ∧ r2.init_copy = r1.init_copy ∧
      st_hub_quat_push_data (with_buffer sample_streaming_dev (List.replicate 9 255))
        sample_frame 99 = some r3 ∧
      r3.init_copy = r1.init_copy ∧
      r3.buffer.take r3.init_copy = r1.buffer.take r1.init_copy :=
  ⟨rfl, by decide,
    push_data_decode_idempotent sample_streaming_dev sample_frame (List.replicate 9 255)
      99 100 rfl (by decide) (by decide) (by decide)⟩

/-! ## Agreement of the streaming and the on-demand path -/

theorem four_bytes_at (l : List u8) (a : Nat) (h : a + 4 ≤ l.length) :
    ∃ b0 b1 b2 b3, (l.drop a).take 4 = [b0, b1, b2, b3] ∧
      l[a]? = some b0 ∧ l[a + 1]? = some b1 ∧ l[a + 2]? = some b2 ∧ l[a + 3]? = some b3 := by
  have hl : ((l.drop a).take 4).length = 4 := by
    rw [List.length_take, List.length_drop]; omega
  match hm : (l.drop a).take 4, hl with
  | [b0, b1, b2, b3], _ =>
    exact ⟨b0, b1, b2, b3, rfl,
      getElem?_of_drop_take l a 0 [b0, b1, b2, b3] b0 hm rfl,
      getElem?_of_drop_take l a 1 [b0, b1, b2, b3] b1 hm rfl,
      getElem?_of_drop_take l a 2 [b0, b1, b2, b3] b2 hm rfl,
      getElem?_of_drop_take l a 3 [b0, b1, b2, b3] b3 hm rfl⟩

theorem frame_channel_geometry (raw : List u8) (i : Nat) (hi : i ≤ 4) :
    frame_channel raw i = (raw.drop (4 * i)).take (if i < 4 then 4 else 1) := by
  unfold frame_channel frame_offset frame_width
  interval_cases i <;> rfl

theorem packed_sample_single (raw : List u8) (m i : Nat) (hm : active_channels m = [i]) :
    packed_sample raw m = frame_channel raw i := by
  unfold packed_sample
  rw [hm]
  simp [List.flatMap]

/-- C15 (streaming and on-demand agree on the frame geometry). With the channel
table of the driver installed, a channel `i` of 0..4 that is the only active
one, a payload size of at least 17, the transport delivering a full frame, and
room for the channel in the sample buffer: the bytes the streaming decoder packs
from that frame are the bytes at offset `4 * i` of it, four of them below
channel 4 and one at channel 4; and the on-demand read of channel `i` from the
same frame returns the number those very bytes stand for, with the tag of the
channel. -/
theorem streaming_agrees_with_on_demand (env : hub_env) (indio_dev : iio_dev)
    (timestamp : Int) (i : Nat)
    (hch : indio_dev.channels = st_hub_quat_ch)
    (hi : i ≤ 4)
    (hmask : active_channels indio_dev.active_scan_mask = [i])
    (hpl : 17 ≤ indio_dev.priv.cdata.payload_byte)
    (hfull : indio_dev.priv.cdata.payload_byte ≤ env.read_data.length)
    (hbuf : frame_width i ≤ indio_dev.priv.buffer.length)
    (hok : env.kmalloc_ok = true) (he : 0 ≤ env.enable_ret) (hr : 0 ≤ env.read_ret)
    (hd : 0 ≤ env.disable_ret) :
    ∃ r a,
      st_hub_quat_push_data indio_dev env.read_data timestamp = some r ∧
      st_hub_read_axis_data env indio_dev i 0 = some a ∧
      r.buffer.take r.init_copy
        = (env.read_data.drop (4 * i)).take (if i < 4 then 4 else 1) ∧
      a.data = channel_value (r.buffer.take r.init_copy) ∧
      a.err = (if i < 4 then IIO_VAL_FRACTIONAL_LOG2 else IIO_VAL_INT) := by
  have hdata : 17 ≤ env.read_data.length := by omega
  obtain ⟨st, hst, hb, hic, _⟩ := copy_loop_spec indio_dev env.read_data hch hdata
    (by rw [hmask]; simpa using hbuf)
  have htake : st.buffer.take st.init_copy
      = (env.read_data.drop (4 * i)).take (if i < 4 then 4 else 1) := by
    rw [hb, hic, List.take_left, packed_sample_single _ _ i hmask,
      frame_channel_geometry _ i hi]
  have hsf := scratch_full env _ indio_dev.priv.cdata.payload_byte
    (kmalloc_block_length env _) hfull
  have hpush : st_hub_quat_push_data indio_dev env.read_data timestamp
      = some { buffer := st.buffer, init_copy := st.init_copy,
               trace := [hub_event.iio_push_to_buffers_with_timestamp st.buffer
                          timestamp] } := by
    unfold st_hub_quat_push_data; rw [hst]; rfl
  rw [hpush, read_axis_data_extracts env indio_dev i 0 hch hok he hr hd]
  simp only [hsf]
  by_cases h4 : i = 4
  · subst h4
    obtain ⟨b, hb16⟩ : ∃ b, env.read_data[16]? = some b :=
      ⟨_, List.getElem?_eq_getElem (by omega)⟩
    have hone : (env.read_data.drop 16).take 1 = [b] := by
      have hl : ((env.read_data.drop 16).take 1).length = 1 := by
        rw [List.length_take, List.length_drop]; omega
      match hm : (env.read_data.drop 16).take 1, hl with
      | [c], _ =>
        have := getElem?_of_drop_take env.read_data 16 0 [c] c hm rfl
        rw [Nat.add_zero, hb16] at this
        rw [Option.some.inj this]
    have hg : (env.read_data.take indio_dev.priv.cdata.payload_byte)[4 * 4]? = some b := by
      rw [List.getElem?_take, if_pos (by omega)]
      exact hb16
    refine ⟨_, { err := IIO_VAL_INT, data := (b.val : Int),
                 trace := read_calls indio_dev }, rfl, ?_, htake, ?_, ?_⟩
    · simp [hg]
    · show (b.val : Int) = channel_value (st.buffer.take st.init_copy)
      rw [htake]
      simp only [show ¬ (4 < 4) by omega, if_false, Nat.reduceMul, hone]
      rfl
    · simp
  · have hlt : i < 4 := by omega
    obtain ⟨b0, b1, b2, b3, hbs, g0, g1, g2, g3⟩ :=
      four_bytes_at env.read_data (4 * i) (by omega)
    have t0 : (env.read_data.take indio_dev.priv.cdata.payload_byte)[4 * i]? = some b0 := by
      rw [List.getElem?_take, if_pos (by omega)]; exact g0
    have t1 : (env.read_data.take indio_dev.priv.cdata.payload_byte)[4 * i + 1]?
        = some b1 := by
      rw [List.getElem?_take, if_pos (by omega)]; exact g1
    have t2 : (env.read_data.take indio_dev.priv.cdata.payload_byte)[4 * i + 2]?
        = some b2 := by
      rw [List.getElem?_take, if_pos (by omega)]; exact g2
    have t3 : (env.read_data.take indio_dev.priv.cdata.payload_byte)[4 * i + 3]?
        = some b3 := by
      rw [List.getElem?_take, if_pos (by omega)]; exact g3
    have hv : get_unaligned_le32 (env.read_data.take indio_dev.priv.cdata.payload_byte)
        (4 * i) = some (b0.val + 2 ^ 8 * b1.val + 2 ^ 16 * b2.val + 2 ^ 24 * b3.val) := by
      unfold get_unaligned_le32
      rw [t0, t1, t2, t3]
      simp only [Option.bind_eq_bind, Option.some_bind, Option.pure_def, le32_or_eq_add]
    refine ⟨_, { err := IIO_VAL_FRACTIONAL_LOG2,
                 data := s32 (b0.val + 2 ^ 8 * b1.val + 2 ^ 16 * b2.val + 2 ^ 24 * b3.val),
                 trace := read_calls indio_dev }, rfl, ?_, htake, ?_, ?_⟩
    · simp [h4, hv]
    · show s32 _ = channel_value (st.buffer.take st.init_copy)
      rw [htake, if_pos hlt, hbs, s32_le32]
      rfl
    · simp [hlt]

theorem streaming_agrees_with_on_demand_witness :
    sample_single_dev.channels = st_hub_quat_ch ∧
    active_channels sample_single_dev.active_scan_mask = [1] ∧
    sample_single_dev.priv.cdata.payload_byte ≤ sample_env.read_data.length ∧
    (sample_env.read_data.drop (4 * 1)).take (if 1 < 4 then 4 else 1) = [0, 0, 0, 0x80] ∧
    channel_value [0, 0, 0, 0x80] = -2147483648 ∧
    ∃ r a,
      st_hub_quat_push_data sample_single_dev sample_env.read_data 99 = some r ∧
      st_hub_read_axis_data sample_env sample_single_dev 1 0 = some a ∧
      r.buffer.take r.init_copy
        = (sample_env.read_data.drop (4 * 1)).take (if 1 < 4 then 4 else 1) ∧
      a.data = channel_value (r.buffer.take r.init_copy) ∧
      a.err = (if 1 < 4 then IIO_VAL_FRACTIONAL_LOG2 else IIO_VAL_INT) :=
  ⟨rfl, by decide, by decide, by decide, by decide,
    streaming_agrees_with_on_demand sample_env sample_single_dev 99 1 rfl (by decide)
      (by decide) (by decide) (by decide) (by decide) rfl (by decide) (by decide)
      (by decide)⟩

end StHubQuat
